import Mathlib

/-!
# KrazyKarts: movement replication

A shallow embedding of `GoKartMovementReplicator.cpp` (client-side prediction,
server reconciliation and remote-entity interpolation for a replicated kart)
together with the properties of it that are established below.

Modelling conventions.

* The C++ `float` is modelled by the exact rationals `ℚ`: comparisons and
  field arithmetic are those of `ℚ`; infinities and NaN are outside the model.
  Division by zero, which never occurs on a guarded path, follows the `ℚ`
  convention `x / 0 = 0`.
* Rounding is modelled where it decides a property: the velocity round trip of
  the interpolation (`CreateSpline` multiplies by a factor, `InterpolateVelocity`
  divides by it) has counterparts with the suffix `_rounded`, in which every
  arithmetic operation of the source is followed by a rounding function; the
  rounding of binary32 is `Binary32Round`.
* A component pointer that may be `nullptr` is an `Option`.
* A `TArray` is a `List`; `TArray::Add` appends at the end.
* Member functions that mutate the component take the state and return the
  new state.
* The offset root's world pose is the one last written through the replicator;
  the scene graph's propagation of the owner's transform to attached components
  belongs to the engine and is not modelled.
-/

namespace KrazyKarts

/-! ## Engine value types -/

/-- The engine vector `FVector`: three scalar coordinates. -/
@[ext]
structure FVector where
  X : ℚ
  Y : ℚ
  Z : ℚ
deriving DecidableEq

/-- The engine quaternion `FQuat`. -/
structure FQuat where
  X : ℚ
  Y : ℚ
  Z : ℚ
  W : ℚ
deriving DecidableEq

/-- The engine transform `FTransform`: rotation, translation (its "location") and scale. -/
structure FTransform where
  Rotation : FQuat
  Translation : FVector
  Scale3D : FVector
deriving DecidableEq

/-- The call `FTransform::GetLocation`. -/
def FTransform.GetLocation (t : FTransform) : FVector := t.Translation

/-- The call `FTransform::GetRotation`. -/
def FTransform.GetRotation (t : FTransform) : FQuat := t.Rotation

/-- The call `FTransform::SetLocation`. -/
def FTransform.SetLocation (t : FTransform) (v : FVector) : FTransform :=
  { t with Translation := v }

/-- The call `FTransform::SetRotation`. -/
def FTransform.SetRotation (t : FTransform) (q : FQuat) : FTransform :=
  { t with Rotation := q }

/-- The product `FVector * float` in exact arithmetic; `FVector.mul_rounded` is the rounded one. -/
def FVector.mul (v : FVector) (k : ℚ) : FVector := ⟨v.X * k, v.Y * k, v.Z * k⟩

/-- The quotient `FVector / float` in exact arithmetic; `FVector.div_rounded` is the rounded one. -/
def FVector.div (v : FVector) (k : ℚ) : FVector := ⟨v.X / k, v.Y / k, v.Z / k⟩

/-- The sum `FVector + FVector`. -/
def FVector.add (v w : FVector) : FVector := ⟨v.X + w.X, v.Y + w.Y, v.Z + w.Z⟩

/-- The engine constant `KINDA_SMALL_NUMBER` (`1.e-4f`). -/
def KINDA_SMALL_NUMBER : ℚ := 1 / 10000

/-- The engine enumeration `ENetRole`. -/
inductive ENetRole where
  | ROLE_None
  | ROLE_SimulatedProxy
  | ROLE_AutonomousProxy
  | ROLE_Authority
deriving DecidableEq

/-! ## Game value types (declared in headers that accompany the replicator) -/

/-- Modelled from the spec: the struct `FGoKartMoves` is declared in the movement
component's header; its fields are those of the spec's `Move`
(`throttle`, `steeringThrow`, `deltaTime`, `time`), of which the replicator reads
`DeltaTime` and `Time`. -/
structure FGoKartMoves where
  Throttle : ℚ
  SteeringThrow : ℚ
  DeltaTime : ℚ
  Time : ℚ
deriving DecidableEq

/-- Modelled from the spec: the sanity check `FGoKartMoves::IsValid` lives in the
movement component's header.  The spec describes it as: throttle and steering
inside `[-1, 1]` and `deltaTime` inside a bounded plausible range; the data model
gives `deltaTime > 0`, and the upper end of the range is the parameter
`MaxDeltaTime`. -/
def FGoKartMoves.IsValid (MaxDeltaTime : ℚ) (m : FGoKartMoves) : Bool :=
  decide (-1 ≤ m.Throttle) && decide (m.Throttle ≤ 1) &&
  decide (-1 ≤ m.SteeringThrow) && decide (m.SteeringThrow ≤ 1) &&
  decide (0 < m.DeltaTime) && decide (m.DeltaTime ≤ MaxDeltaTime)

/-- The replicated struct `FGoKartState` (the spec's `AuthorityState`): the fields the
replicator reads and writes are `Transform`, `Velocity` and `LastMove`. -/
structure FGoKartState where
  Transform : FTransform
  Velocity : FVector
  LastMove : FGoKartMoves
deriving DecidableEq

/-- The spec's `PhysicalState`: the owner's pose and the movement component's velocity. -/
structure PhysicalState where
  Transform : FTransform
  Velocity : FVector
deriving DecidableEq

/-- The struct `FHermiteCubicSpline` filled in by `CreateSpline`. -/
structure FHermiteCubicSpline where
  StartLocation : FVector
  StartDerivative : FVector
  TargetLocation : FVector
  TargetDerivative : FVector
deriving DecidableEq

/-- Modelled from the spec: `FHermiteCubicSpline::InterpolateLocaton` is declared in the
replicator's header.  The spec asks for the cubic Hermite spline over the two
end points and the two end derivatives, evaluated at the ratio `A`: the curve
`(2A³ - 3A² + 1) P0 + (A³ - 2A² + A) T0 + (A³ - A²) T1 + (-2A³ + 3A²) P1`. -/
def FHermiteCubicSpline.InterpolateLocaton (Spline : FHermiteCubicSpline) (A : ℚ) : FVector :=
  let A2 := A * A
  let A3 := A2 * A
  (((Spline.StartLocation.mul (2 * A3 - 3 * A2 + 1)).add
      (Spline.StartDerivative.mul (A3 - 2 * A2 + A))).add
      (Spline.TargetDerivative.mul (A3 - A2))).add
      (Spline.TargetLocation.mul (-2 * A3 + 3 * A2))

/-- Modelled from the spec: `FHermiteCubicSpline::InterpolateDerivative` is declared in the
replicator's header.  The spec asks for the derivative of the same cubic
Hermite spline with respect to the ratio `A`:
`(6A² - 6A) P0 + (3A² - 4A + 1) T0 + (3A² - 2A) T1 + (-6A² + 6A) P1`. -/
def FHermiteCubicSpline.InterpolateDerivative (Spline : FHermiteCubicSpline) (A : ℚ) : FVector :=
  let A2 := A * A
  (((Spline.StartLocation.mul (6 * A2 - 6 * A)).add
      (Spline.StartDerivative.mul (3 * A2 - 4 * A + 1))).add
      (Spline.TargetDerivative.mul (3 * A2 - 2 * A))).add
      (Spline.TargetLocation.mul (-6 * A2 + 6 * A))

/-! ## Collaborating components -/

/-- The part of `UGoKartMovementComponent` the replicator touches: the velocity behind
`GetVelocity` / `SetVelocity` and the move behind `GetLastMove`. -/
structure UGoKartMovementComponent where
  Velocity : FVector
  LastMove : FGoKartMoves
deriving DecidableEq

/-- The call `UGoKartMovementComponent::GetVelocity`. -/
def UGoKartMovementComponent.GetVelocity (c : UGoKartMovementComponent) : FVector := c.Velocity

/-- The call `UGoKartMovementComponent::SetVelocity`. -/
def UGoKartMovementComponent.SetVelocity (c : UGoKartMovementComponent) (v : FVector) :
    UGoKartMovementComponent :=
  { c with Velocity := v }

/-- The call `UGoKartMovementComponent::GetLastMove`. -/
def UGoKartMovementComponent.GetLastMove (c : UGoKartMovementComponent) : FGoKartMoves := c.LastMove

/-- The world pose of the scene component `MeshOffsetRoot`, as read by
`GetComponentLocation` / `GetComponentQuat` and written by `SetWorldLocation` /
`SetWorldRotation`. -/
structure USceneComponent where
  WorldLocation : FVector
  WorldRotation : FQuat
deriving DecidableEq

/-! ## The replicator -/

/-- The state the replicator works on: its own members, the owning actor's transform,
and the two components it points to.  `SentMoves` records the `Server_SendMove`
remote calls issued by the owning client, in order. -/
structure UGoKartMovementReplicator where
  ActorTransform : FTransform
  MovementComponent : Option UGoKartMovementComponent
  MeshOffsetRoot : Option USceneComponent
  UnacknowledgedMoves : List FGoKartMoves
  ServerState : FGoKartState
  ClientSimulatedTime : ℚ
  ClientTimeSinceUpdate : ℚ
  ClientTimeBetweenLastUpdates : ℚ
  ClientStartTransform : FTransform
  StartVelocity : FVector
  SentMoves : List FGoKartMoves
deriving DecidableEq

/-- One iteration of the loop of `ClearAcknowledgeMoves`: the move is added to `NewMoves`
when its time is after the acknowledged one. -/
def ClearAcknowledgeMoves_loop (LastMove : FGoKartMoves) (NewMoves : List FGoKartMoves)
    (Move : FGoKartMoves) : List FGoKartMoves :=
  if Move.Time > LastMove.Time then NewMoves ++ [Move] else NewMoves

/-- The member `ClearAcknowledgeMoves`: a pass over `UnacknowledgedMoves` that collects into a
fresh array the moves later than `LastMove`, and stores that array back. -/
def ClearAcknowledgeMoves (s : UGoKartMovementReplicator) (LastMove : FGoKartMoves) :
    UGoKartMovementReplicator :=
  { s with UnacknowledgedMoves :=
      s.UnacknowledgedMoves.foldl (ClearAcknowledgeMoves_loop LastMove) [] }

/-- The call `MovementComponent->SimulateMove(Move)`.  The integrator lives in the movement
component; it enters as the parameter `Simulate`, the spec's pure
`Simulate(state, move)`.  The call reads the owner's transform and the component's
velocity and writes both back. -/
def UGoKartMovementComponent.SimulateMove (Simulate : PhysicalState → FGoKartMoves → PhysicalState)
    (Owner : FTransform) (c : UGoKartMovementComponent) (Move : FGoKartMoves) :
    FTransform × UGoKartMovementComponent :=
  let p := Simulate ⟨Owner, c.Velocity⟩ Move
  (p.Transform, { c with Velocity := p.Velocity })

/-- The member `UpdateServerState`: stores the move, the owner's transform and the component's
velocity in `ServerState`.  Every caller has checked the component pointer; with
no component the state is returned as it is. -/
def UpdateServerState (s : UGoKartMovementReplicator) (Move : FGoKartMoves) :
    UGoKartMovementReplicator :=
  match s.MovementComponent with
  | none => s
  | some c =>
    { s with ServerState :=
        { LastMove := Move, Transform := s.ActorTransform, Velocity := c.GetVelocity } }

/-- The member `VelocityToDerivative`. -/
def VelocityToDerivative (s : UGoKartMovementReplicator) : ℚ :=
  s.ClientTimeBetweenLastUpdates * 100

/-- The member `CreateSpline`. -/
def CreateSpline (s : UGoKartMovementReplicator) : FHermiteCubicSpline :=
  { TargetLocation := s.ServerState.Transform.GetLocation
    StartLocation := s.ClientStartTransform.GetLocation
    StartDerivative := s.StartVelocity.mul (VelocityToDerivative s)
    TargetDerivative := s.ServerState.Velocity.mul (VelocityToDerivative s) }

/-- The member `InterpolateLocation`: moves the offset root, when there is one, to the spline's
location at the ratio. -/
def InterpolateLocation (s : UGoKartMovementReplicator) (Spline : FHermiteCubicSpline)
    (LerpRatio : ℚ) : UGoKartMovementReplicator :=
  let NewLocation := Spline.InterpolateLocaton LerpRatio
  match s.MeshOffsetRoot with
  | none => s
  | some r => { s with MeshOffsetRoot := some { r with WorldLocation := NewLocation } }

/-- The member `InterpolateVelocity`: sets the component's velocity to the spline's derivative at
the ratio divided by `VelocityToDerivative()`.  Its caller has checked the
component pointer. -/
def InterpolateVelocity (s : UGoKartMovementReplicator) (Spline : FHermiteCubicSpline)
    (LerpRatio : ℚ) : UGoKartMovementReplicator :=
  let NewDerivative := Spline.InterpolateDerivative LerpRatio
  let NewVelocity := NewDerivative.div (VelocityToDerivative s)
  match s.MovementComponent with
  | none => s
  | some c => { s with MovementComponent := some (c.SetVelocity NewVelocity) }

/-- The member `InterpolateRotation`; the engine's `FQuat::Slerp` is the parameter `Slerp`. -/
def InterpolateRotation (Slerp : FQuat → FQuat → ℚ → FQuat) (s : UGoKartMovementReplicator)
    (LerpRatio : ℚ) : UGoKartMovementReplicator :=
  let TargetRotation := s.ServerState.Transform.GetRotation
  let StartRotation := s.ClientStartTransform.GetRotation
  let NewRotation := Slerp StartRotation TargetRotation LerpRatio
  match s.MeshOffsetRoot with
  | none => s
  | some r => { s with MeshOffsetRoot := some { r with WorldRotation := NewRotation } }

/-- The member `ClientTick`. -/
def ClientTick (Slerp : FQuat → FQuat → ℚ → FQuat) (s : UGoKartMovementReplicator)
    (DeltaTime : ℚ) : UGoKartMovementReplicator :=
  let s1 := { s with ClientTimeSinceUpdate := s.ClientTimeSinceUpdate + DeltaTime }
  if s1.ClientTimeBetweenLastUpdates < KINDA_SMALL_NUMBER then s1
  else if s1.MovementComponent = none then s1
  else
    let LerpRatio := s1.ClientTimeSinceUpdate / s1.ClientTimeBetweenLastUpdates
    let Spline := CreateSpline s1
    let s2 := InterpolateLocation s1 Spline LerpRatio
    let s3 := InterpolateVelocity s2 Spline LerpRatio
    InterpolateRotation Slerp s3 LerpRatio

/-- The member `TickComponent`.  `OwnerRole` is `GetOwnerRole()` and `RemoteRole` is
`GetOwner()->GetRemoteRole()`.  On the owning client the move is added to the log
and sent to the server (recorded in `SentMoves`). -/
def TickComponent (Slerp : FQuat → FQuat → ℚ → FQuat) (OwnerRole RemoteRole : ENetRole)
    (s : UGoKartMovementReplicator) (DeltaTime : ℚ) : UGoKartMovementReplicator :=
  match s.MovementComponent with
  | none => s
  | some c =>
    let LastMove := c.GetLastMove
    let s1 :=
      if OwnerRole = ENetRole.ROLE_AutonomousProxy then
        { s with UnacknowledgedMoves := s.UnacknowledgedMoves ++ [LastMove]
                 SentMoves := s.SentMoves ++ [LastMove] }
      else s
    let s2 :=
      if RemoteRole = ENetRole.ROLE_SimulatedProxy then UpdateServerState s1 LastMove else s1
    if OwnerRole = ENetRole.ROLE_SimulatedProxy then ClientTick Slerp s2 DeltaTime else s2

/-- One iteration of the replay loop of `AutonomousProxy_OnRep_ServerState`: one `SimulateMove`
on the owner's transform and the component. -/
def AutonomousProxy_OnRep_ServerState_loop
    (Simulate : PhysicalState → FGoKartMoves → PhysicalState)
    (w : FTransform × UGoKartMovementComponent) (Move : FGoKartMoves) :
    FTransform × UGoKartMovementComponent :=
  UGoKartMovementComponent.SimulateMove Simulate w.1 w.2 Move

/-- The member `AutonomousProxy_OnRep_ServerState`: snap to the replicated `ServerState`, trim
the log by its last move, replay what is left. -/
def AutonomousProxy_OnRep_ServerState (Simulate : PhysicalState → FGoKartMoves → PhysicalState)
    (s : UGoKartMovementReplicator) : UGoKartMovementReplicator :=
  match s.MovementComponent with
  | none => s
  | some c =>
    let s1 := { s with ActorTransform := s.ServerState.Transform
                       MovementComponent := some (c.SetVelocity s.ServerState.Velocity) }
    let s2 := ClearAcknowledgeMoves s1 s1.ServerState.LastMove
    let w := s2.UnacknowledgedMoves.foldl (AutonomousProxy_OnRep_ServerState_loop Simulate)
      (s2.ActorTransform, c.SetVelocity s.ServerState.Velocity)
    { s2 with ActorTransform := w.1, MovementComponent := some w.2 }

/-- The member `SimulatedProxy_OnRep_ServerState`. -/
def SimulatedProxy_OnRep_ServerState (s : UGoKartMovementReplicator) :
    UGoKartMovementReplicator :=
  match s.MovementComponent with
  | none => s
  | some c =>
    let s1 := { s with ClientTimeBetweenLastUpdates := s.ClientTimeSinceUpdate
                       ClientTimeSinceUpdate := 0 }
    let s2 :=
      match s1.MeshOffsetRoot with
      | none => s1
      | some r =>
        { s1 with ClientStartTransform :=
            (s1.ClientStartTransform.SetLocation r.WorldLocation).SetRotation r.WorldRotation }
    let s3 := { s2 with StartVelocity := c.GetVelocity }
    { s3 with ActorTransform := s3.ServerState.Transform }

/-- The member `OnRep_ServerState`: the dispatch on `GetOwnerRole()`. -/
def OnRep_ServerState (Simulate : PhysicalState → FGoKartMoves → PhysicalState)
    (OwnerRole : ENetRole) (s : UGoKartMovementReplicator) : UGoKartMovementReplicator :=
  match OwnerRole with
  | ENetRole.ROLE_AutonomousProxy => AutonomousProxy_OnRep_ServerState Simulate s
  | ENetRole.ROLE_SimulatedProxy => SimulatedProxy_OnRep_ServerState s
  | _ => s

/-- The member `Server_SendMove_Implementation`. -/
def Server_SendMove_Implementation (Simulate : PhysicalState → FGoKartMoves → PhysicalState)
    (s : UGoKartMovementReplicator) (Move : FGoKartMoves) : UGoKartMovementReplicator :=
  match s.MovementComponent with
  | none => s
  | some c =>
    let s1 := { s with ClientSimulatedTime := s.ClientSimulatedTime + Move.DeltaTime }
    let w := UGoKartMovementComponent.SimulateMove Simulate s1.ActorTransform c Move
    let s2 := { s1 with ActorTransform := w.1, MovementComponent := some w.2 }
    UpdateServerState s2 Move

/-- The member `Server_SendMove_Validate`.  `IsValid` is the move's sanity check and
`TimeSeconds` is `GetWorld()->TimeSeconds`, the server's elapsed time.  The result
`false` rejects the move. -/
def Server_SendMove_Validate (IsValid : FGoKartMoves → Bool) (TimeSeconds : ℚ)
    (s : UGoKartMovementReplicator) (Move : FGoKartMoves) : Bool :=
  let ProposedTime := s.ClientSimulatedTime + Move.DeltaTime
  let ClientNotRunningAhed := decide (ProposedTime < TimeSeconds)
  if !ClientNotRunningAhed && !IsValid Move then false else true

/-- The server's receipt of the remote call `Server_SendMove`, which is declared with
validation: the implementation runs only when the validator accepts. -/
def Server_SendMove (Simulate : PhysicalState → FGoKartMoves → PhysicalState)
    (IsValid : FGoKartMoves → Bool) (TimeSeconds : ℚ)
    (s : UGoKartMovementReplicator) (Move : FGoKartMoves) : UGoKartMovementReplicator :=
  if Server_SendMove_Validate IsValid TimeSeconds s Move then
    Server_SendMove_Implementation Simulate s Move
  else s

/-! ## Rounded arithmetic on the interpolation path -/

/-- The integer nearest to `y`, the even one when `y` lies half way between two integers. -/
def RoundHalfEven (y : ℚ) : ℤ :=
  if y - ⌊y⌋ < 1 / 2 then ⌊y⌋
  else if 1 / 2 < y - ⌊y⌋ then ⌊y⌋ + 1
  else if ⌊y⌋ % 2 = 0 then ⌊y⌋ else ⌊y⌋ + 1

/-- The rounding of binary32 arithmetic, round to nearest with ties to even: the value nearest to
`x` among the multiples of `2 ^ (e - 23)`, where `2 ^ e ≤ |x| < 2 ^ (e + 1)` (a
significand of 24 bits).  The exponent is not bounded: overflow and gradual
underflow are outside the model. -/
def Binary32Round (x : ℚ) : ℚ :=
  if x = 0 then 0
  else (RoundHalfEven (x / 2 ^ (Int.log 2 |x| - 23)) : ℚ) * 2 ^ (Int.log 2 |x| - 23)

/-- The product `FVector * float`, each coordinate rounded by `Round`. -/
def FVector.mul_rounded (Round : ℚ → ℚ) (v : FVector) (k : ℚ) : FVector :=
  ⟨Round (v.X * k), Round (v.Y * k), Round (v.Z * k)⟩

/-- The quotient `FVector / float`, each coordinate rounded by `Round`. -/
def FVector.div_rounded (Round : ℚ → ℚ) (v : FVector) (k : ℚ) : FVector :=
  ⟨Round (v.X / k), Round (v.Y / k), Round (v.Z / k)⟩

/-- The member `VelocityToDerivative` with its product rounded. -/
def VelocityToDerivative_rounded (Round : ℚ → ℚ) (s : UGoKartMovementReplicator) : ℚ :=
  Round (s.ClientTimeBetweenLastUpdates * 100)

/-- The member `CreateSpline` with its two products rounded. -/
def CreateSpline_rounded (Round : ℚ → ℚ) (s : UGoKartMovementReplicator) :
    FHermiteCubicSpline :=
  { TargetLocation := s.ServerState.Transform.GetLocation
    StartLocation := s.ClientStartTransform.GetLocation
    StartDerivative := s.StartVelocity.mul_rounded Round (VelocityToDerivative_rounded Round s)
    TargetDerivative :=
      s.ServerState.Velocity.mul_rounded Round (VelocityToDerivative_rounded Round s) }

/-- The member `InterpolateVelocity` with its quotient rounded.  The spline's own evaluation,
which is not part of the replicator's source file, stays the curve the spec
describes. -/
def InterpolateVelocity_rounded (Round : ℚ → ℚ) (s : UGoKartMovementReplicator)
    (Spline : FHermiteCubicSpline) (LerpRatio : ℚ) : UGoKartMovementReplicator :=
  let NewDerivative := Spline.InterpolateDerivative LerpRatio
  let NewVelocity := NewDerivative.div_rounded Round (VelocityToDerivative_rounded Round s)
  match s.MovementComponent with
  | none => s
  | some c => { s with MovementComponent := some (c.SetVelocity NewVelocity) }

/-! ## Event sequences -/

/-- The movement component's own frame, which runs outside the replicator, leaves `Move` as the
component's last move; nothing happens when there is no component. -/
def SetLastMove (s : UGoKartMovementReplicator) (Move : FGoKartMoves) :
    UGoKartMovementReplicator :=
  { s with MovementComponent := s.MovementComponent.map (fun c => { c with LastMove := Move }) }

/-- The replication substrate delivers the snapshot `S` of `ServerState` to a peer: the value is
stored and the change notification `OnRep_ServerState` runs. -/
def ReceiveServerState (Simulate : PhysicalState → FGoKartMoves → PhysicalState)
    (OwnerRole : ENetRole) (s : UGoKartMovementReplicator) (S : FGoKartState) :
    UGoKartMovementReplicator :=
  OnRep_ServerState Simulate OwnerRole { s with ServerState := S }

/-- What can happen to the replicator on the owning client: a frame in which the movement
component holds `LastMove`, a trim of the log, or the arrival of a snapshot. -/
inductive ClientEvent where
  | Tick (LastMove : FGoKartMoves) (DeltaTime : ℚ)
  | Trim (LastMove : FGoKartMoves)
  | OnRep (S : FGoKartState)

/-- One event on the owning client, whose role is `ROLE_AutonomousProxy` and whose remote role is
`ROLE_Authority`. -/
def ClientEvent.apply (Slerp : FQuat → FQuat → ℚ → FQuat)
    (Simulate : PhysicalState → FGoKartMoves → PhysicalState)
    (s : UGoKartMovementReplicator) : ClientEvent → UGoKartMovementReplicator
  | ClientEvent.Tick LastMove DeltaTime =>
    TickComponent Slerp ENetRole.ROLE_AutonomousProxy ENetRole.ROLE_Authority
      (SetLastMove s LastMove) DeltaTime
  | ClientEvent.Trim LastMove => ClearAcknowledgeMoves s LastMove
  | ClientEvent.OnRep S => ReceiveServerState Simulate ENetRole.ROLE_AutonomousProxy s S

/-- A sequence of events on the owning client, oldest first. -/
def ClientRun (Slerp : FQuat → FQuat → ℚ → FQuat)
    (Simulate : PhysicalState → FGoKartMoves → PhysicalState)
    (s : UGoKartMovementReplicator) (evs : List ClientEvent) : UGoKartMovementReplicator :=
  evs.foldl (ClientEvent.apply Slerp Simulate) s

/-- The move a client event appends to the log, if it is a frame. -/
def ClientEvent.appended : ClientEvent → Option FGoKartMoves
  | ClientEvent.Tick LastMove _ => some LastMove
  | _ => none

/-- Every frame of the sequence appends a move later than the last move acknowledged at that
point (`ServerState.LastMove`). -/
def ClientEvent.AppendsAfterAck (Slerp : FQuat → FQuat → ℚ → FQuat)
    (Simulate : PhysicalState → FGoKartMoves → PhysicalState) :
    UGoKartMovementReplicator → List ClientEvent → Prop
  | _, [] => True
  | s, ev :: evs =>
    (∀ m, ev.appended = some m → s.ServerState.LastMove.Time < m.Time) ∧
    ClientEvent.AppendsAfterAck Slerp Simulate (ev.apply Slerp Simulate s) evs

/-- What writes `ServerState` on the server: the receipt of a move sent by the owning client,
when the world time is `TimeSeconds`, or the server's own frame for a kart it
controls, in which the movement component holds `LastMove`. -/
inductive ServerEvent where
  | Recv (TimeSeconds : ℚ) (Move : FGoKartMoves)
  | Tick (LastMove : FGoKartMoves) (DeltaTime : ℚ)

/-- One event on the server, whose role is `ROLE_Authority`; in its own frame the remote role is
`ROLE_SimulatedProxy`. -/
def ServerEvent.apply (Slerp : FQuat → FQuat → ℚ → FQuat)
    (Simulate : PhysicalState → FGoKartMoves → PhysicalState) (IsValid : FGoKartMoves → Bool)
    (s : UGoKartMovementReplicator) : ServerEvent → UGoKartMovementReplicator
  | ServerEvent.Recv TimeSeconds Move => Server_SendMove Simulate IsValid TimeSeconds s Move
  | ServerEvent.Tick LastMove DeltaTime =>
    TickComponent Slerp ENetRole.ROLE_Authority ENetRole.ROLE_SimulatedProxy
      (SetLastMove s LastMove) DeltaTime

/-- A sequence of events on the server, oldest first. -/
def ServerRun (Slerp : FQuat → FQuat → ℚ → FQuat)
    (Simulate : PhysicalState → FGoKartMoves → PhysicalState) (IsValid : FGoKartMoves → Bool)
    (s : UGoKartMovementReplicator) (evs : List ServerEvent) : UGoKartMovementReplicator :=
  evs.foldl (ServerEvent.apply Slerp Simulate IsValid) s

/-- The move an event of the server offers to `ServerState`. -/
def ServerEvent.move : ServerEvent → FGoKartMoves
  | ServerEvent.Recv _ Move => Move
  | ServerEvent.Tick LastMove _ => LastMove

/-- The divisors of the divisions `ClientTick` performs on the path it takes, in order: none on
either early return, otherwise `ClientTimeBetweenLastUpdates` for the ratio and then
`VelocityToDerivative()` inside `InterpolateVelocity`, which runs after
`InterpolateLocation`. -/
def ClientTick_divisors (s : UGoKartMovementReplicator) (DeltaTime : ℚ) : List ℚ :=
  let s1 := { s with ClientTimeSinceUpdate := s.ClientTimeSinceUpdate + DeltaTime }
  if s1.ClientTimeBetweenLastUpdates < KINDA_SMALL_NUMBER then []
  else if s1.MovementComponent = none then []
  else
    let LerpRatio := s1.ClientTimeSinceUpdate / s1.ClientTimeBetweenLastUpdates
    let Spline := CreateSpline s1
    let s2 := InterpolateLocation s1 Spline LerpRatio
    [s1.ClientTimeBetweenLastUpdates, VelocityToDerivative s2]

/-- Successive calls of `ClientTick`, one per frame, with the frames' durations, oldest first. -/
def ClientTicks (Slerp : FQuat → FQuat → ℚ → FQuat) (s : UGoKartMovementReplicator)
    (DeltaTimes : List ℚ) : UGoKartMovementReplicator :=
  DeltaTimes.foldl (ClientTick Slerp) s

/-- The server receives the submitted moves in order, each with the world time at its receipt:
every one goes through `Server_SendMove`. -/
def ServerReceive (Simulate : PhysicalState → FGoKartMoves → PhysicalState)
    (IsValid : FGoKartMoves → Bool) (s : UGoKartMovementReplicator)
    (Submitted : List (ℚ × FGoKartMoves)) : UGoKartMovementReplicator :=
  Submitted.foldl (fun t p => Server_SendMove Simulate IsValid p.1 t p.2) s

/-- The submitted moves that the validator accepted and that found a resolved movement component
when they were applied, in order. -/
def AppliedMoves (Simulate : PhysicalState → FGoKartMoves → PhysicalState)
    (IsValid : FGoKartMoves → Bool) :
    UGoKartMovementReplicator → List (ℚ × FGoKartMoves) → List FGoKartMoves
  | _, [] => []
  | s, p :: rest =>
    if Server_SendMove_Validate IsValid p.1 s p.2 = true ∧ s.MovementComponent ≠ none then
      p.2 :: AppliedMoves Simulate IsValid (Server_SendMove Simulate IsValid p.1 s p.2) rest
    else
      AppliedMoves Simulate IsValid (Server_SendMove Simulate IsValid p.1 s p.2) rest

/-! ## Concrete instances used for evaluation -/

/-- An integrator instance: the kart coasts, its location advancing by velocity times the
move's duration. -/
def CoastSimulate (p : PhysicalState) (Move : FGoKartMoves) : PhysicalState :=
  { p with Transform :=
      p.Transform.SetLocation (p.Transform.GetLocation.add (p.Velocity.mul Move.DeltaTime)) }

/-- A rotation blend instance: the start rotation below ratio one, the target from there on. -/
def StepSlerp (Start Target : FQuat) (Ratio : ℚ) : FQuat :=
  if Ratio < 1 then Start else Target

/-- The identity transform. -/
def FTransform.Identity : FTransform := ⟨⟨0, 0, 0, 1⟩, ⟨0, 0, 0⟩, ⟨1, 1, 1⟩⟩

/-- A move with neutral controls lasting `DeltaTime`, stamped `Time`. -/
def NeutralMove (DeltaTime Time : ℚ) : FGoKartMoves := ⟨0, 0, DeltaTime, Time⟩

/-- A replicator at rest at the origin with a resolved movement component, an offset root, an
empty log and all counters at zero. -/
def RestState : UGoKartMovementReplicator :=
  { ActorTransform := FTransform.Identity
    MovementComponent := some ⟨⟨0, 0, 0⟩, NeutralMove 0 0⟩
    MeshOffsetRoot := some ⟨⟨0, 0, 0⟩, ⟨0, 0, 0, 1⟩⟩
    UnacknowledgedMoves := []
    ServerState := ⟨FTransform.Identity, ⟨0, 0, 0⟩, NeutralMove 0 0⟩
    ClientSimulatedTime := 0
    ClientTimeSinceUpdate := 0
    ClientTimeBetweenLastUpdates := 0
    ClientStartTransform := FTransform.Identity
    StartVelocity := ⟨0, 0, 0⟩
    SentMoves := [] }

/-- An owning client with three logged moves stamped 1, 2 and 3, whose replicated snapshot
places the kart at the origin with velocity `(2, 0, 0)` and acknowledges the move
stamped 2. -/
def ReplayState : UGoKartMovementReplicator :=
  { RestState with
    UnacknowledgedMoves := [NeutralMove 1 1, NeutralMove 1 2, NeutralMove 1 3]
    ServerState := ⟨FTransform.Identity, ⟨2, 0, 0⟩, NeutralMove 1 2⟩ }

/-- A server that has already simulated ten seconds of the client's moves. -/
def AheadState : UGoKartMovementReplicator :=
  { RestState with ClientSimulatedTime := 10 }

/-- A snapshot at the origin, at rest, whose last move is stamped `Time`. -/
def AckSnapshot (Time : ℚ) : FGoKartState :=
  ⟨FTransform.Identity, ⟨0, 0, 0⟩, NeutralMove 1 Time⟩

/-- A session on the owning client: two frames, the acknowledgement of the first move, a third
frame. -/
def ClientSession : List ClientEvent :=
  [ClientEvent.Tick (NeutralMove 1 1) 1, ClientEvent.Tick (NeutralMove 1 2) 1,
    ClientEvent.OnRep (AckSnapshot 1), ClientEvent.Tick (NeutralMove 1 3) 1]

/-- A session on the owning client in which a frame runs again while the movement component
still holds the move that has just been acknowledged. -/
def StaleSession : List ClientEvent :=
  [ClientEvent.Tick (NeutralMove 1 1) 1, ClientEvent.OnRep (AckSnapshot 1),
    ClientEvent.Tick (NeutralMove 1 1) 1]

/-- A simulated proxy half a second into an interpolation window whose last two snapshots were
one second apart: it started at the origin with velocity `(1, 0, 0)` and heads
for `(10, 0, 0)` with velocity `(3, 0, 0)`. -/
def WindowState : UGoKartMovementReplicator :=
  { RestState with
    ServerState := ⟨⟨⟨0, 0, 0, 1⟩, ⟨10, 0, 0⟩, ⟨1, 1, 1⟩⟩, ⟨3, 0, 0⟩, NeutralMove 1 1⟩
    ClientTimeSinceUpdate := 1 / 2
    ClientTimeBetweenLastUpdates := 1
    StartVelocity := ⟨1, 0, 0⟩ }

/-- The window of `WindowState` without an offset root. -/
def NoRootState : UGoKartMovementReplicator :=
  { WindowState with MeshOffsetRoot := none }

/-- A replicator whose movement component has not been resolved, with a logged move and timers
that are not zero. -/
def NoComponentState : UGoKartMovementReplicator :=
  { WindowState with
    MovementComponent := none
    UnacknowledgedMoves := [NeutralMove 1 1] }

/-- A simulated proxy that has just been notified, half a second after the previous snapshot. -/
def HalfSecondState : UGoKartMovementReplicator :=
  { WindowState with
    ClientTimeSinceUpdate := 0
    ClientTimeBetweenLastUpdates := 1 / 2 }

/-- Four submissions to a server whose clock reads five seconds: a neutral one-second move, a
one-second move with throttle 2, a three-second move with throttle 2, and a
neutral two-second move. -/
def Submissions : List (ℚ × FGoKartMoves) :=
  [(5, NeutralMove 1 1), (5, ⟨2, 0, 1, 2⟩), (5, ⟨2, 0, 3, 3⟩), (5, NeutralMove 2 4)]

/-- A simulated proxy whose last two snapshots were a thirtieth of a second apart (the binary32
value nearest to `1 / 30`), which started with velocity `(3, 0, 0)`. -/
def ThirtiethState : UGoKartMovementReplicator :=
  { WindowState with
    ClientTimeSinceUpdate := 0
    ClientTimeBetweenLastUpdates := 8947849 / 268435456
    StartVelocity := ⟨3, 0, 0⟩ }

/-! ## Trimming the move log -/

theorem ClearAcknowledgeMoves_foldl_loop (LastMove : FGoKartMoves) (l acc : List FGoKartMoves) :
    l.foldl (ClearAcknowledgeMoves_loop LastMove) acc
      = acc ++ l.filter (fun m => decide (m.Time > LastMove.Time)) := by
  induction l generalizing acc with
  | nil => simp
  | cons m l ih =>
    rw [List.foldl_cons, ih]
    by_cases h : m.Time > LastMove.Time
    · simp [ClearAcknowledgeMoves_loop, h]
    · simp [ClearAcknowledgeMoves_loop, h]

theorem ClearAcknowledgeMoves_log_eq_filter (s : UGoKartMovementReplicator)
    (LastMove : FGoKartMoves) :
    (ClearAcknowledgeMoves s LastMove).UnacknowledgedMoves
      = s.UnacknowledgedMoves.filter (fun m => decide (m.Time > LastMove.Time)) := by
  simp [ClearAcknowledgeMoves, ClearAcknowledgeMoves_foldl_loop]

/-- C2 (trim exactness).  For every move log, sorted or not, and every acknowledged move,
`ClearAcknowledgeMoves` leaves the log filtered by `Time > LastMove.Time`: a move is in
the result exactly when it was in the log with a later time, every entry with
`Time ≤ LastMove.Time` is gone, every later entry keeps its multiplicity, and the
result is a sublist of the log (same relative order). -/
theorem ClearAcknowledgeMoves_trim_exact (s : UGoKartMovementReplicator)
    (LastMove : FGoKartMoves) :
    (ClearAcknowledgeMoves s LastMove).UnacknowledgedMoves
        = s.UnacknowledgedMoves.filter (fun m => decide (m.Time > LastMove.Time))
      ∧ (∀ m, m ∈ (ClearAcknowledgeMoves s LastMove).UnacknowledgedMoves
            ↔ m ∈ s.UnacknowledgedMoves ∧ m.Time > LastMove.Time)
      ∧ (∀ m, m.Time ≤ LastMove.Time →
            m ∉ (ClearAcknowledgeMoves s LastMove).UnacknowledgedMoves)
      ∧ (∀ m, m.Time > LastMove.Time →
            (ClearAcknowledgeMoves s LastMove).UnacknowledgedMoves.count m
              = s.UnacknowledgedMoves.count m)
      ∧ (ClearAcknowledgeMoves s LastMove).UnacknowledgedMoves.Sublist s.UnacknowledgedMoves := by
  rw [ClearAcknowledgeMoves_log_eq_filter]
  refine ⟨rfl, ?_, ?_, ?_, List.filter_sublist _⟩
  · intro m
    simp [List.mem_filter]
  · intro m hm hmem
    have := (List.mem_filter.mp hmem).2
    simp only [decide_eq_true_eq] at this
    exact absurd this (not_lt.mpr hm)
  · intro m hm
    rw [List.count_filter]
    simpa using hm

/-! ## Reconciliation on the owning client -/

theorem filter_later_eq_drop (t : ℚ) (l : List FGoKartMoves) (k : ℕ)
    (hsorted : l.Pairwise (fun a b => a.Time < b.Time))
    (hack : (l[k]?).map FGoKartMoves.Time = some t) :
    l.filter (fun m => decide (m.Time > t)) = l.drop (k + 1) := by
  induction l generalizing k with
  | nil => simp at hack
  | cons a l ih =>
    rw [List.pairwise_cons] at hsorted
    cases k with
    | zero =>
      simp only [List.getElem?_cons_zero, Option.map_some', Option.some.injEq] at hack
      have hall : ∀ m ∈ l, decide (m.Time > t) = true := by
        intro m hm
        have := hsorted.1 m hm
        simp only [gt_iff_lt, decide_eq_true_eq]
        rw [← hack]
        exact this
      simp [List.filter_cons, hack, List.filter_eq_self.mpr hall]
    | succ k =>
      simp only [List.getElem?_cons_succ] at hack
      have hmem : ∃ b ∈ l, b.Time = t := by
        cases hb : l[k]? with
        | none => simp [hb] at hack
        | some b =>
          refine ⟨b, List.getElem?_mem hb, ?_⟩
          simpa [hb] using hack
      obtain ⟨b, hb, hbt⟩ := hmem
      have hlt : a.Time < t := hbt ▸ hsorted.1 b hb
      have hna : ¬ a.Time > t := not_lt.mpr (le_of_lt hlt)
      simp [List.filter_cons, hna, ih k hsorted.2 hack]

theorem AutonomousProxy_replay_eq_foldl
    (Simulate : PhysicalState → FGoKartMoves → PhysicalState)
    (l : List FGoKartMoves) (T : FTransform) (c : UGoKartMovementComponent) :
    l.foldl (AutonomousProxy_OnRep_ServerState_loop Simulate) (T, c)
      = ((l.foldl Simulate ⟨T, c.Velocity⟩).Transform,
          { c with Velocity := (l.foldl Simulate ⟨T, c.Velocity⟩).Velocity }) := by
  induction l generalizing T c with
  | nil => simp
  | cons m l ih =>
    simp only [List.foldl_cons, AutonomousProxy_OnRep_ServerState_loop,
      UGoKartMovementComponent.SimulateMove]
    rw [ih]

/-- C1 (reconciliation convergence).  For every replicated snapshot and every move log with
strictly increasing times, if the snapshot's last move has the time of the `k`-th
oldest logged move (`1 ≤ k`), then `AutonomousProxy_OnRep_ServerState`, run with a
resolved movement component, leaves the log equal to the remaining moves
(`drop k`) and the owner's transform and the component's velocity equal to the
left fold of `Simulate` over those moves from the snapshot's transform and
velocity. -/
theorem AutonomousProxy_OnRep_ServerState_converges
    (Simulate : PhysicalState → FGoKartMoves → PhysicalState)
    (s : UGoKartMovementReplicator) (c : UGoKartMovementComponent) (k : ℕ)
    (hc : s.MovementComponent = some c)
    (hsorted : s.UnacknowledgedMoves.Pairwise (fun a b => a.Time < b.Time))
    (hk : 1 ≤ k)
    (hack : (s.UnacknowledgedMoves[k - 1]?).map FGoKartMoves.Time
              = some s.ServerState.LastMove.Time) :
    (AutonomousProxy_OnRep_ServerState Simulate s).UnacknowledgedMoves
        = s.UnacknowledgedMoves.drop k
      ∧ (AutonomousProxy_OnRep_ServerState Simulate s).ActorTransform
        = ((s.UnacknowledgedMoves.drop k).foldl Simulate
            ⟨s.ServerState.Transform, s.ServerState.Velocity⟩).Transform
      ∧ (AutonomousProxy_OnRep_ServerState Simulate s).MovementComponent.map
          UGoKartMovementComponent.GetVelocity
        = some ((s.UnacknowledgedMoves.drop k).foldl Simulate
            ⟨s.ServerState.Transform, s.ServerState.Velocity⟩).Velocity := by
  have hdrop := filter_later_eq_drop s.ServerState.LastMove.Time s.UnacknowledgedMoves (k - 1)
    hsorted hack
  rw [Nat.sub_add_cancel hk] at hdrop
  simp only [AutonomousProxy_OnRep_ServerState, hc, ClearAcknowledgeMoves_log_eq_filter, hdrop,
    AutonomousProxy_replay_eq_foldl]
  simp [ClearAcknowledgeMoves, UGoKartMovementComponent.SetVelocity,
    UGoKartMovementComponent.GetVelocity]

/-- Reconciliation on a log stamped 1, 2, 3 after the move stamped 2 is acknowledged. -/
theorem AutonomousProxy_OnRep_ServerState_converges_witness :
    ReplayState.UnacknowledgedMoves.Pairwise (fun a b => a.Time < b.Time)
      ∧ (ReplayState.UnacknowledgedMoves[2 - 1]?).map FGoKartMoves.Time
          = some ReplayState.ServerState.LastMove.Time
      ∧ (AutonomousProxy_OnRep_ServerState CoastSimulate ReplayState).UnacknowledgedMoves
          = ReplayState.UnacknowledgedMoves.drop 2
      ∧ (AutonomousProxy_OnRep_ServerState CoastSimulate ReplayState).ActorTransform
          = ((ReplayState.UnacknowledgedMoves.drop 2).foldl CoastSimulate
              ⟨ReplayState.ServerState.Transform, ReplayState.ServerState.Velocity⟩).Transform
      ∧ (AutonomousProxy_OnRep_ServerState CoastSimulate ReplayState).MovementComponent.map
            UGoKartMovementComponent.GetVelocity
          = some ((ReplayState.UnacknowledgedMoves.drop 2).foldl CoastSimulate
              ⟨ReplayState.ServerState.Transform, ReplayState.ServerState.Velocity⟩).Velocity :=
  ⟨by decide, by decide,
    AutonomousProxy_OnRep_ServerState_converges CoastSimulate ReplayState
      ⟨⟨0, 0, 0⟩, NeutralMove 0 0⟩ 2 rfl (by decide) (by decide) (by decide)⟩

/-! ## The server's validator and the application of a move -/

theorem Server_SendMove_Validate_eq_false_iff (IsValid : FGoKartMoves → Bool) (TimeSeconds : ℚ)
    (s : UGoKartMovementReplicator) (Move : FGoKartMoves) :
    Server_SendMove_Validate IsValid TimeSeconds s Move = false
      ↔ ¬ (s.ClientSimulatedTime + Move.DeltaTime < TimeSeconds) ∧ IsValid Move = false := by
  unfold Server_SendMove_Validate
  by_cases h : s.ClientSimulatedTime + Move.DeltaTime < TimeSeconds <;>
    cases hv : IsValid Move <;> simp [h]

/-- C3 (validator rejection), evaluated on the code.  With ten seconds already simulated
and a server clock of five seconds, a valid one-second move takes the client
past the server's elapsed time and is accepted; with nothing simulated yet, a
move with throttle 2 is inside the time budget, fails the sanity check and is
accepted as well.  In both cases `ServerState.LastMove` becomes the move. -/
theorem Server_SendMove_Validate_accepts_ahead_or_invalid :
    (FGoKartMoves.IsValid 1 ⟨1, 0, 1, 11⟩ = true
        ∧ AheadState.ClientSimulatedTime + (⟨1, 0, 1, 11⟩ : FGoKartMoves).DeltaTime > 5
        ∧ Server_SendMove_Validate (FGoKartMoves.IsValid 1) 5 AheadState ⟨1, 0, 1, 11⟩ = true
        ∧ (Server_SendMove CoastSimulate (FGoKartMoves.IsValid 1) 5 AheadState
              ⟨1, 0, 1, 11⟩).ServerState.LastMove = ⟨1, 0, 1, 11⟩
        ∧ AheadState.ServerState.LastMove ≠ ⟨1, 0, 1, 11⟩)
      ∧ (FGoKartMoves.IsValid 1 ⟨2, 0, 1, 1⟩ = false
        ∧ RestState.ClientSimulatedTime + (⟨2, 0, 1, 1⟩ : FGoKartMoves).DeltaTime < 5
        ∧ Server_SendMove_Validate (FGoKartMoves.IsValid 1) 5 RestState ⟨2, 0, 1, 1⟩ = true
        ∧ (Server_SendMove CoastSimulate (FGoKartMoves.IsValid 1) 5 RestState
              ⟨2, 0, 1, 1⟩).ServerState.LastMove = ⟨2, 0, 1, 1⟩
        ∧ RestState.ServerState.LastMove ≠ ⟨2, 0, 1, 1⟩) := by
  refine ⟨⟨by decide, ?_, ?_, ?_, by decide⟩, ⟨by decide, ?_, ?_, ?_, by decide⟩⟩ <;>
    norm_num [Server_SendMove, Server_SendMove_Validate, Server_SendMove_Implementation,
      UpdateServerState, AheadState, RestState, FGoKartMoves.IsValid]

/-- C4 (validator acceptance).  A move that passes the sanity check and whose
`ClientSimulatedTime + DeltaTime` is within the server's elapsed time is accepted by
`Server_SendMove_Validate`. -/
theorem Server_SendMove_Validate_accepts (IsValid : FGoKartMoves → Bool) (TimeSeconds : ℚ)
    (s : UGoKartMovementReplicator) (Move : FGoKartMoves)
    (hvalid : IsValid Move = true)
    (_hbudget : s.ClientSimulatedTime + Move.DeltaTime ≤ TimeSeconds) :
    Server_SendMove_Validate IsValid TimeSeconds s Move = true := by
  simp [Server_SendMove_Validate, hvalid]

/-- A neutral one-second move sent to a server five seconds old is accepted. -/
theorem Server_SendMove_Validate_accepts_witness :
    FGoKartMoves.IsValid 1 (NeutralMove 1 1) = true
      ∧ RestState.ClientSimulatedTime + (NeutralMove 1 1).DeltaTime ≤ 5
      ∧ Server_SendMove_Validate (FGoKartMoves.IsValid 1) 5 RestState (NeutralMove 1 1) = true :=
  ⟨by decide, by norm_num [RestState, NeutralMove],
    Server_SendMove_Validate_accepts (FGoKartMoves.IsValid 1) 5 RestState (NeutralMove 1 1)
      (by decide) (by norm_num [RestState, NeutralMove])⟩

/-- C5 (server-side apply).  For a move the validator accepts, received with a resolved
movement component, `Server_SendMove` runs `Server_SendMove_Implementation`, which
advances the owner's transform and the component's velocity by exactly one
`Simulate` of that move and then stores in `ServerState` the transform and
velocity of the simulated state together with the move as `LastMove`. -/
theorem Server_SendMove_Implementation_applies
    (Simulate : PhysicalState → FGoKartMoves → PhysicalState) (IsValid : FGoKartMoves → Bool)
    (TimeSeconds : ℚ) (s : UGoKartMovementReplicator) (c : UGoKartMovementComponent)
    (Move : FGoKartMoves)
    (hc : s.MovementComponent = some c)
    (hacc : Server_SendMove_Validate IsValid TimeSeconds s Move = true) :
    Server_SendMove Simulate IsValid TimeSeconds s Move
        = Server_SendMove_Implementation Simulate s Move
      ∧ (Server_SendMove_Implementation Simulate s Move).ActorTransform
        = (Simulate ⟨s.ActorTransform, c.Velocity⟩ Move).Transform
      ∧ (Server_SendMove_Implementation Simulate s Move).MovementComponent
        = some { c with Velocity := (Simulate ⟨s.ActorTransform, c.Velocity⟩ Move).Velocity }
      ∧ (Server_SendMove_Implementation Simulate s Move).ServerState
        = { Transform := (Simulate ⟨s.ActorTransform, c.Velocity⟩ Move).Transform
            Velocity := (Simulate ⟨s.ActorTransform, c.Velocity⟩ Move).Velocity
            LastMove := Move } := by
  refine ⟨by simp [Server_SendMove, hacc], ?_, ?_, ?_⟩ <;>
    simp [Server_SendMove_Implementation, hc, UpdateServerState,
      UGoKartMovementComponent.SimulateMove, UGoKartMovementComponent.GetVelocity]

/-- An accepted neutral move stamped 4 is simulated once and published. -/
theorem Server_SendMove_Implementation_applies_witness :
    (Server_SendMove CoastSimulate (FGoKartMoves.IsValid 1) 5 ReplayState (NeutralMove 1 4)).ServerState
      = { Transform := (CoastSimulate ⟨ReplayState.ActorTransform, ⟨0, 0, 0⟩⟩
            (NeutralMove 1 4)).Transform
          Velocity := (CoastSimulate ⟨ReplayState.ActorTransform, ⟨0, 0, 0⟩⟩
            (NeutralMove 1 4)).Velocity
          LastMove := NeutralMove 1 4 } := by
  have h := Server_SendMove_Implementation_applies CoastSimulate (FGoKartMoves.IsValid 1) 5
    ReplayState ⟨⟨0, 0, 0⟩, NeutralMove 0 0⟩ (NeutralMove 1 4) rfl
    (by norm_num [Server_SendMove_Validate, ReplayState, RestState, NeutralMove])
  rw [h.1]
  exact h.2.2.2

/-! ## The time of the last move in `ServerState` -/

theorem ServerEvent_apply_LastMove (Slerp : FQuat → FQuat → ℚ → FQuat)
    (Simulate : PhysicalState → FGoKartMoves → PhysicalState) (IsValid : FGoKartMoves → Bool)
    (s : UGoKartMovementReplicator) (ev : ServerEvent) :
    (ev.apply Slerp Simulate IsValid s).ServerState.LastMove = s.ServerState.LastMove
      ∨ (ev.apply Slerp Simulate IsValid s).ServerState.LastMove = ev.move := by
  cases ev with
  | Recv TimeSeconds Move =>
    cases hc : s.MovementComponent with
    | none =>
      left
      by_cases hv : Server_SendMove_Validate IsValid TimeSeconds s Move = true <;>
        simp [ServerEvent.apply, Server_SendMove, Server_SendMove_Implementation, hc, hv]
    | some c =>
      by_cases hv : Server_SendMove_Validate IsValid TimeSeconds s Move = true
      · right
        simp [ServerEvent.apply, Server_SendMove, Server_SendMove_Implementation, hc, hv,
          UpdateServerState, ServerEvent.move]
      · left
        simp [ServerEvent.apply, Server_SendMove, hv]
  | Tick LastMove DeltaTime =>
    cases hc : s.MovementComponent with
    | none =>
      left
      simp [ServerEvent.apply, TickComponent, SetLastMove, hc]
    | some c =>
      right
      simp [ServerEvent.apply, TickComponent, SetLastMove, hc, UpdateServerState,
        ServerEvent.move, UGoKartMovementComponent.GetLastMove]

theorem ServerRun_LastMove_mem (Slerp : FQuat → FQuat → ℚ → FQuat)
    (Simulate : PhysicalState → FGoKartMoves → PhysicalState) (IsValid : FGoKartMoves → Bool)
    (s : UGoKartMovementReplicator) (evs : List ServerEvent) :
    (ServerRun Slerp Simulate IsValid s evs).ServerState.LastMove = s.ServerState.LastMove
      ∨ ∃ ev ∈ evs, (ServerRun Slerp Simulate IsValid s evs).ServerState.LastMove = ev.move := by
  induction evs generalizing s with
  | nil => left; rfl
  | cons ev evs ih =>
    have hrun : ServerRun Slerp Simulate IsValid s (ev :: evs)
        = ServerRun Slerp Simulate IsValid (ev.apply Slerp Simulate IsValid s) evs := rfl
    rw [hrun]
    rcases ih (ev.apply Slerp Simulate IsValid s) with h | ⟨e, he, h⟩
    · rcases ServerEvent_apply_LastMove Slerp Simulate IsValid s ev with h1 | h1
      · left; rw [h, h1]
      · right; exact ⟨ev, List.mem_cons_self _ _, by rw [h, h1]⟩
    · right; exact ⟨e, List.mem_cons_of_mem _ he, h⟩

theorem ServerRun_LastMove_Time_le (Slerp : FQuat → FQuat → ℚ → FQuat)
    (Simulate : PhysicalState → FGoKartMoves → PhysicalState) (IsValid : FGoKartMoves → Bool)
    (s : UGoKartMovementReplicator) (evs : List ServerEvent)
    (hfrom : ∀ ev ∈ evs, s.ServerState.LastMove.Time ≤ ev.move.Time) :
    s.ServerState.LastMove.Time
      ≤ (ServerRun Slerp Simulate IsValid s evs).ServerState.LastMove.Time := by
  rcases ServerRun_LastMove_mem Slerp Simulate IsValid s evs with h | ⟨e, he, h⟩
  · rw [h]
  · rw [h]; exact hfrom e he

/-- C6 (authority state monotonicity), as the code has it.  Over every sequence of
server-side writes of `ServerState` (received moves that pass through the validator,
and the server's own frames) whose moves come in non-decreasing `Time` order, none
earlier than the `LastMove.Time` the sequence starts from, `ServerState.LastMove.Time`
after any prefix of the sequence is at most its value after any longer prefix. -/
theorem ServerState_LastMove_Time_monotone (Slerp : FQuat → FQuat → ℚ → FQuat)
    (Simulate : PhysicalState → FGoKartMoves → PhysicalState) (IsValid : FGoKartMoves → Bool)
    (s : UGoKartMovementReplicator) (evs₁ evs₂ : List ServerEvent)
    (hordered : (evs₁ ++ evs₂).Pairwise (fun a b => a.move.Time ≤ b.move.Time))
    (hfrom : ∀ ev ∈ evs₁ ++ evs₂, s.ServerState.LastMove.Time ≤ ev.move.Time) :
    (ServerRun Slerp Simulate IsValid s evs₁).ServerState.LastMove.Time
      ≤ (ServerRun Slerp Simulate IsValid s (evs₁ ++ evs₂)).ServerState.LastMove.Time := by
  have hrun : ServerRun Slerp Simulate IsValid s (evs₁ ++ evs₂)
      = ServerRun Slerp Simulate IsValid (ServerRun Slerp Simulate IsValid s evs₁) evs₂ := by
    simp [ServerRun, List.foldl_append]
  rw [hrun]
  apply ServerRun_LastMove_Time_le
  intro ev hev
  rcases ServerRun_LastMove_mem Slerp Simulate IsValid s evs₁ with h | ⟨e, he, h⟩
  · rw [h]; exact hfrom ev (List.mem_append_right _ hev)
  · rw [h]; exact (List.pairwise_append.mp hordered).2.2 e he ev hev

/-- A received move stamped 1 followed by a frame of the server with a move stamped 2. -/
theorem ServerState_LastMove_Time_monotone_witness :
    (ServerRun StepSlerp CoastSimulate (FGoKartMoves.IsValid 1) RestState
        [ServerEvent.Recv 10 (NeutralMove 1 1)]).ServerState.LastMove.Time
      ≤ (ServerRun StepSlerp CoastSimulate (FGoKartMoves.IsValid 1) RestState
        ([ServerEvent.Recv 10 (NeutralMove 1 1)]
          ++ [ServerEvent.Tick (NeutralMove 1 2) 1])).ServerState.LastMove.Time :=
  ServerState_LastMove_Time_monotone StepSlerp CoastSimulate (FGoKartMoves.IsValid 1) RestState
    [ServerEvent.Recv 10 (NeutralMove 1 1)] [ServerEvent.Tick (NeutralMove 1 2) 1]
    (by simp [ServerEvent.move, NeutralMove])
    (by simp [ServerEvent.move, NeutralMove, RestState])

/-- C6 as stated fails: two valid one-second moves stamped 2 and then 1 reach the server
well within its ten seconds of elapsed time; the validator accepts both, and
`ServerState.LastMove.Time` goes from 2 down to 1. -/
theorem ServerState_LastMove_Time_can_decrease :
    Server_SendMove_Validate (FGoKartMoves.IsValid 1) 10 RestState (NeutralMove 1 2) = true
      ∧ Server_SendMove_Validate (FGoKartMoves.IsValid 1) 10
          (ServerRun StepSlerp CoastSimulate (FGoKartMoves.IsValid 1) RestState
            [ServerEvent.Recv 10 (NeutralMove 1 2)]) (NeutralMove 1 1) = true
      ∧ (ServerRun StepSlerp CoastSimulate (FGoKartMoves.IsValid 1) RestState
          [ServerEvent.Recv 10 (NeutralMove 1 2)]).ServerState.LastMove.Time = 2
      ∧ (ServerRun StepSlerp CoastSimulate (FGoKartMoves.IsValid 1) RestState
          [ServerEvent.Recv 10 (NeutralMove 1 2),
            ServerEvent.Recv 10 (NeutralMove 1 1)]).ServerState.LastMove.Time = 1
      ∧ (ServerRun StepSlerp CoastSimulate (FGoKartMoves.IsValid 1) RestState
          [ServerEvent.Recv 10 (NeutralMove 1 2),
            ServerEvent.Recv 10 (NeutralMove 1 1)]).ServerState.LastMove.Time
        < (ServerRun StepSlerp CoastSimulate (FGoKartMoves.IsValid 1) RestState
          [ServerEvent.Recv 10 (NeutralMove 1 2)]).ServerState.LastMove.Time := by
  refine ⟨?_, ?_, ?_, ?_, ?_⟩ <;>
    norm_num [ServerRun, ServerEvent.apply, Server_SendMove, Server_SendMove_Validate,
      Server_SendMove_Implementation, UpdateServerState, RestState, NeutralMove,
      FGoKartMoves.IsValid]

/-! ## The move log on the owning client -/

theorem ClientEvent_apply_log (Slerp : FQuat → FQuat → ℚ → FQuat)
    (Simulate : PhysicalState → FGoKartMoves → PhysicalState)
    (s : UGoKartMovementReplicator) (ev : ClientEvent) :
    (∃ m, ev.appended = some m
        ∧ (ev.apply Slerp Simulate s).UnacknowledgedMoves = s.UnacknowledgedMoves ++ [m])
      ∨ (ev.apply Slerp Simulate s).UnacknowledgedMoves.Sublist s.UnacknowledgedMoves := by
  cases ev with
  | Tick LastMove DeltaTime =>
    cases hc : s.MovementComponent with
    | none =>
      right
      simp [ClientEvent.apply, TickComponent, SetLastMove, hc]
    | some c =>
      left
      refine ⟨LastMove, rfl, ?_⟩
      simp [ClientEvent.apply, TickComponent, SetLastMove, hc,
        UGoKartMovementComponent.GetLastMove]
  | Trim LastMove =>
    right
    simp only [ClientEvent.apply, ClearAcknowledgeMoves_log_eq_filter]
    exact List.filter_sublist _
  | OnRep S =>
    right
    cases hc : s.MovementComponent with
    | none =>
      simp [ClientEvent.apply, ReceiveServerState, OnRep_ServerState,
        AutonomousProxy_OnRep_ServerState, hc]
    | some c =>
      simp only [ClientEvent.apply, ReceiveServerState, OnRep_ServerState,
        AutonomousProxy_OnRep_ServerState, hc, ClearAcknowledgeMoves_log_eq_filter]
      exact List.filter_sublist _

theorem ClientRun_log_sorted (Slerp : FQuat → FQuat → ℚ → FQuat)
    (Simulate : PhysicalState → FGoKartMoves → PhysicalState)
    (s : UGoKartMovementReplicator) (evs : List ClientEvent)
    (hsorted : s.UnacknowledgedMoves.Pairwise (fun a b => a.Time < b.Time))
    (hbefore : ∀ e ∈ s.UnacknowledgedMoves, ∀ m ∈ evs.filterMap ClientEvent.appended,
      e.Time < m.Time)
    (hincreasing : (evs.filterMap ClientEvent.appended).Pairwise (fun a b => a.Time < b.Time)) :
    (ClientRun Slerp Simulate s evs).UnacknowledgedMoves.Pairwise
      (fun a b => a.Time < b.Time) := by
  induction evs generalizing s with
  | nil => exact hsorted
  | cons ev evs ih =>
    have hrun : ClientRun Slerp Simulate s (ev :: evs)
        = ClientRun Slerp Simulate (ev.apply Slerp Simulate s) evs := rfl
    rw [hrun]
    rcases ClientEvent_apply_log Slerp Simulate s ev with ⟨m, hm, hlog⟩ | hsub
    · have hfm : (ev :: evs).filterMap ClientEvent.appended
          = m :: evs.filterMap ClientEvent.appended := by
        simp [List.filterMap_cons, hm]
      rw [hfm] at hbefore hincreasing
      rw [List.pairwise_cons] at hincreasing
      apply ih
      · rw [hlog, List.pairwise_append]
        refine ⟨hsorted, by simp, ?_⟩
        intro a ha b hb
        rw [List.mem_singleton] at hb
        subst hb
        exact hbefore a ha b (List.mem_cons_self _ _)
      · intro e he m' hm'
        rw [hlog, List.mem_append, List.mem_singleton] at he
        rcases he with he | he
        · exact hbefore e he m' (List.mem_cons_of_mem _ hm')
        · subst he
          exact hincreasing.1 m' hm'
      · exact hincreasing.2
    · have hsubl : (evs.filterMap ClientEvent.appended).Sublist
          ((ev :: evs).filterMap ClientEvent.appended) :=
        (List.sublist_cons_self ev evs).filterMap _
      apply ih
      · exact hsorted.sublist hsub
      · intro e he m' hm'
        exact hbefore e (hsub.subset he) m' (hsubl.subset hm')
      · exact hincreasing.sublist hsubl

/-- C7 (queue monotonicity).  Starting from an empty log, for every interleaving of frames of
the owning client (each appends the movement component's last move), trims and
snapshot notifications at arbitrary acknowledged times, in which the appended
moves have strictly increasing times, `UnacknowledgedMoves` is sorted by strictly
increasing `Time` after every step (after every prefix `take n` of the sequence). -/
theorem UnacknowledgedMoves_sorted (Slerp : FQuat → FQuat → ℚ → FQuat)
    (Simulate : PhysicalState → FGoKartMoves → PhysicalState)
    (s : UGoKartMovementReplicator) (evs : List ClientEvent) (n : ℕ)
    (hempty : s.UnacknowledgedMoves = [])
    (hincreasing : (evs.filterMap ClientEvent.appended).Pairwise (fun a b => a.Time < b.Time)) :
    (ClientRun Slerp Simulate s (evs.take n)).UnacknowledgedMoves.Pairwise
      (fun a b => a.Time < b.Time) := by
  apply ClientRun_log_sorted
  · rw [hempty]; exact List.Pairwise.nil
  · rw [hempty]; intro e he; cases he
  · exact hincreasing.sublist ((List.take_sublist n evs).filterMap _)

/-- The log stays sorted through two frames, an acknowledgement and a third frame. -/
theorem UnacknowledgedMoves_sorted_witness :
    (ClientRun StepSlerp CoastSimulate RestState (ClientSession.take 4)).UnacknowledgedMoves.Pairwise
      (fun a b => a.Time < b.Time) :=
  UnacknowledgedMoves_sorted StepSlerp CoastSimulate RestState ClientSession 4 rfl (by decide)

theorem ClientEvent_apply_after_ack (Slerp : FQuat → FQuat → ℚ → FQuat)
    (Simulate : PhysicalState → FGoKartMoves → PhysicalState)
    (s : UGoKartMovementReplicator) (ev : ClientEvent)
    (hnone : s.MovementComponent = none → s.UnacknowledgedMoves = [])
    (hlog : ∀ e ∈ s.UnacknowledgedMoves, s.ServerState.LastMove.Time < e.Time)
    (hguard : ∀ m, ev.appended = some m → s.ServerState.LastMove.Time < m.Time) :
    ((ev.apply Slerp Simulate s).MovementComponent = none
        → (ev.apply Slerp Simulate s).UnacknowledgedMoves = [])
      ∧ ∀ e ∈ (ev.apply Slerp Simulate s).UnacknowledgedMoves,
          (ev.apply Slerp Simulate s).ServerState.LastMove.Time < e.Time := by
  cases ev with
  | Tick LastMove DeltaTime =>
    cases hc : s.MovementComponent with
    | none =>
      have hl := hnone hc
      simp [ClientEvent.apply, TickComponent, SetLastMove, hc, hl]
    | some c =>
      have hg := hguard LastMove rfl
      simp only [ClientEvent.apply, TickComponent, SetLastMove, hc, Option.map_some',
        UGoKartMovementComponent.GetLastMove]
      simp only [if_true, reduceCtorEq, if_false, List.mem_append, List.mem_singleton]
      refine ⟨by simp, ?_⟩
      rintro e (he | he)
      · exact hlog e he
      · subst he; exact hg
  | Trim LastMove =>
    simp only [ClientEvent.apply, ClearAcknowledgeMoves_log_eq_filter]
    refine ⟨?_, ?_⟩
    · intro h
      have h1 : s.MovementComponent = none := by simpa [ClearAcknowledgeMoves] using h
      simp [hnone h1]
    · intro e he
      have h2 : (ClearAcknowledgeMoves s LastMove).ServerState = s.ServerState := rfl
      rw [h2]
      exact hlog e (List.mem_filter.mp he).1
  | OnRep S =>
    cases hc : s.MovementComponent with
    | none =>
      have hl := hnone hc
      simp [ClientEvent.apply, ReceiveServerState, OnRep_ServerState,
        AutonomousProxy_OnRep_ServerState, hc, hl]
    | some c =>
      simp only [ClientEvent.apply, ReceiveServerState, OnRep_ServerState,
        AutonomousProxy_OnRep_ServerState, hc, ClearAcknowledgeMoves_log_eq_filter]
      refine ⟨by simp, ?_⟩
      intro e he
      have := (List.mem_filter.mp he).2
      simpa [ClearAcknowledgeMoves] using this

theorem ClientRun_after_ack (Slerp : FQuat → FQuat → ℚ → FQuat)
    (Simulate : PhysicalState → FGoKartMoves → PhysicalState)
    (s : UGoKartMovementReplicator) (evs : List ClientEvent)
    (hnone : s.MovementComponent = none → s.UnacknowledgedMoves = [])
    (hlog : ∀ e ∈ s.UnacknowledgedMoves, s.ServerState.LastMove.Time < e.Time)
    (hguard : ClientEvent.AppendsAfterAck Slerp Simulate s evs) :
    ∀ e ∈ (ClientRun Slerp Simulate s evs).UnacknowledgedMoves,
      (ClientRun Slerp Simulate s evs).ServerState.LastMove.Time < e.Time := by
  induction evs generalizing s with
  | nil => exact hlog
  | cons ev evs ih =>
    have hrun : ClientRun Slerp Simulate s (ev :: evs)
        = ClientRun Slerp Simulate (ev.apply Slerp Simulate s) evs := rfl
    rw [hrun]
    obtain ⟨h1, h2⟩ := ClientEvent_apply_after_ack Slerp Simulate s ev hnone hlog hguard.1
    exact ih (ev.apply Slerp Simulate s) h1 h2 hguard.2

/-- C8 (move log invariant), as the code has it.  In every state reached on the owning client
from an empty log by frames, trims and snapshot notifications in which each frame
appends a move whose `Time` is strictly greater than `ServerState.LastMove.Time` at
that moment, every entry of `UnacknowledgedMoves` has `Time` strictly greater than
`ServerState.LastMove.Time`. -/
theorem UnacknowledgedMoves_after_ack (Slerp : FQuat → FQuat → ℚ → FQuat)
    (Simulate : PhysicalState → FGoKartMoves → PhysicalState)
    (s : UGoKartMovementReplicator) (evs : List ClientEvent)
    (hempty : s.UnacknowledgedMoves = [])
    (hguard : ClientEvent.AppendsAfterAck Slerp Simulate s evs) :
    ∀ e ∈ (ClientRun Slerp Simulate s evs).UnacknowledgedMoves,
      (ClientRun Slerp Simulate s evs).ServerState.LastMove.Time < e.Time := by
  apply ClientRun_after_ack Slerp Simulate s evs (fun _ => hempty) _ hguard
  rw [hempty]
  intro e he
  cases he

/-- The move stamped 3 is in the log at the end of the session and is later than the move
acknowledged there. -/
theorem UnacknowledgedMoves_after_ack_witness :
    NeutralMove 1 3 ∈ (ClientRun StepSlerp CoastSimulate RestState ClientSession).UnacknowledgedMoves
      ∧ (ClientRun StepSlerp CoastSimulate RestState ClientSession).ServerState.LastMove.Time
          < (NeutralMove 1 3).Time :=
  ⟨by decide,
    UnacknowledgedMoves_after_ack StepSlerp CoastSimulate RestState ClientSession rfl
      (by
        simp [ClientSession, ClientEvent.AppendsAfterAck, ClientEvent.appended,
          ClientEvent.apply, TickComponent, SetLastMove, ReceiveServerState, OnRep_ServerState,
          AutonomousProxy_OnRep_ServerState, ClearAcknowledgeMoves, RestState, NeutralMove,
          AckSnapshot])
      (NeutralMove 1 3) (by decide)⟩

/-- C8 as stated fails: a frame appends the move stamped 1, the server acknowledges it, and a
further frame runs while the movement component still holds that move.  The
append is unconditional, so the log ends with an entry whose `Time` equals
`ServerState.LastMove.Time` instead of exceeding it. -/
theorem UnacknowledgedMoves_append_unchecked :
    (ClientRun StepSlerp CoastSimulate RestState StaleSession).UnacknowledgedMoves
        = [NeutralMove 1 1]
      ∧ (ClientRun StepSlerp CoastSimulate RestState StaleSession).ServerState.LastMove.Time = 1
      ∧ ¬ ((ClientRun StepSlerp CoastSimulate RestState StaleSession).ServerState.LastMove.Time
            < (NeutralMove 1 1).Time) := by
  refine ⟨by decide, by decide, by decide⟩

/-! ## The interpolation spline -/

theorem VelocityToDerivative_pos (s : UGoKartMovementReplicator)
    (hwindow : KINDA_SMALL_NUMBER ≤ s.ClientTimeBetweenLastUpdates) :
    0 < VelocityToDerivative s := by
  have h : (0 : ℚ) < s.ClientTimeBetweenLastUpdates :=
    lt_of_lt_of_le (by norm_num [KINDA_SMALL_NUMBER]) hwindow
  unfold VelocityToDerivative
  positivity

theorem InterpolateLocaton_zero (Spline : FHermiteCubicSpline) :
    Spline.InterpolateLocaton 0 = Spline.StartLocation := by
  simp [FHermiteCubicSpline.InterpolateLocaton, FVector.mul, FVector.add]

theorem InterpolateLocaton_one (Spline : FHermiteCubicSpline) :
    Spline.InterpolateLocaton 1 = Spline.TargetLocation := by
  simp only [FHermiteCubicSpline.InterpolateLocaton, FVector.mul, FVector.add]
  ext <;> simp <;> ring

theorem InterpolateDerivative_zero (Spline : FHermiteCubicSpline) :
    Spline.InterpolateDerivative 0 = Spline.StartDerivative := by
  simp [FHermiteCubicSpline.InterpolateDerivative, FVector.mul, FVector.add]

theorem InterpolateDerivative_one (Spline : FHermiteCubicSpline) :
    Spline.InterpolateDerivative 1 = Spline.TargetDerivative := by
  simp only [FHermiteCubicSpline.InterpolateDerivative, FVector.mul, FVector.add]
  ext <;> simp <;> ring

theorem RoundHalfEven_eq (y : ℚ) (m : ℤ) (hlo : (m : ℚ) - 1 / 2 < y) (hhi : y < m + 1 / 2) :
    RoundHalfEven y = m := by
  unfold RoundHalfEven
  by_cases hym : (m : ℚ) ≤ y
  · have hf : ⌊y⌋ = m := by
      rw [Int.floor_eq_iff]
      constructor
      · exact hym
      · linarith
    rw [hf, if_pos (by linarith)]
  · have hf : ⌊y⌋ = m - 1 := by
      rw [Int.floor_eq_iff]
      push_cast
      constructor
      · linarith
      · linarith [not_le.mp hym]
    have h1 : ¬ (y - ((m - 1 : ℤ) : ℚ) < 1 / 2) := by push_cast; linarith
    have h2 : 1 / 2 < y - ((m - 1 : ℤ) : ℚ) := by push_cast; linarith
    rw [hf, if_neg h1, if_pos h2]
    ring

theorem RoundHalfEven_tie_even (y : ℚ) (m : ℤ) (htie : y = m + 1 / 2) (heven : m % 2 = 0) :
    RoundHalfEven y = m := by
  unfold RoundHalfEven
  have hf : ⌊y⌋ = m := by
    rw [Int.floor_eq_iff]
    constructor <;> linarith
  have h1 : ¬ (y - (m : ℚ) < 1 / 2) := by linarith
  have h2 : ¬ (1 / 2 < y - (m : ℚ)) := by linarith
  rw [hf, if_neg h1, if_neg h2, if_pos heven]

theorem Binary32Round_zero : Binary32Round 0 = 0 := by
  simp [Binary32Round]

theorem Binary32Round_eq (x : ℚ) (e m : ℤ) (hpos : 0 < x)
    (hlo : (2 : ℚ) ^ e ≤ x) (hhi : x < (2 : ℚ) ^ (e + 1))
    (hm : RoundHalfEven (x / 2 ^ (e - 23)) = m) :
    Binary32Round x = m * 2 ^ (e - 23) := by
  have hlog : Int.log 2 |x| = e := by
    rw [abs_of_pos hpos]
    apply le_antisymm
    · have := (Int.lt_zpow_iff_log_lt (R := ℚ) (b := 2) (by norm_num) hpos).mp
        (by exact_mod_cast hhi)
      omega
    · exact (Int.zpow_le_iff_le_log (R := ℚ) (b := 2) (by norm_num) hpos).mp
        (by exact_mod_cast hlo)
  unfold Binary32Round
  rw [if_neg (ne_of_gt hpos), hlog, hm]

theorem CreateSpline_rounded_exact (s : UGoKartMovementReplicator) :
    CreateSpline_rounded (fun x => x) s = CreateSpline s := rfl

theorem InterpolateVelocity_rounded_exact (s : UGoKartMovementReplicator)
    (Spline : FHermiteCubicSpline) (LerpRatio : ℚ) :
    InterpolateVelocity_rounded (fun x => x) s Spline LerpRatio
      = InterpolateVelocity s Spline LerpRatio := rfl

/-- C9 (spline boundary conditions), as the code has it.  For every interpolation window whose
interval is at least the epsilon, and whatever the rounding of the arithmetic:
the spline built by `CreateSpline` gives the start location at ratio 0 and
`ServerState`'s location at ratio 1, and `InterpolateLocation` moves the offset root
there; `InterpolateVelocity` stores at ratio 0 the start velocity multiplied by
`VelocityToDerivative()` and divided by it again, product and quotient each
rounded, and at ratio 1 the same round trip of `ServerState.Velocity`.  When the
arithmetic is exact the round trip returns the start velocity and
`ServerState.Velocity` themselves. -/
theorem CreateSpline_boundary_rounded (Round : ℚ → ℚ) (s : UGoKartMovementReplicator)
    (c : UGoKartMovementComponent) (r : USceneComponent)
    (hc : s.MovementComponent = some c) (hr : s.MeshOffsetRoot = some r)
    (hwindow : KINDA_SMALL_NUMBER ≤ s.ClientTimeBetweenLastUpdates) :
    (CreateSpline_rounded Round s).InterpolateLocaton 0 = s.ClientStartTransform.GetLocation
      ∧ (InterpolateLocation s (CreateSpline_rounded Round s) 0).MeshOffsetRoot
          = some { r with WorldLocation := s.ClientStartTransform.GetLocation }
      ∧ (CreateSpline_rounded Round s).InterpolateLocaton 1
          = s.ServerState.Transform.GetLocation
      ∧ (InterpolateLocation s (CreateSpline_rounded Round s) 1).MeshOffsetRoot
          = some { r with WorldLocation := s.ServerState.Transform.GetLocation }
      ∧ (InterpolateVelocity_rounded Round s (CreateSpline_rounded Round s) 0).MovementComponent
          = some (c.SetVelocity
              ((s.StartVelocity.mul_rounded Round
                  (VelocityToDerivative_rounded Round s)).div_rounded Round
                (VelocityToDerivative_rounded Round s)))
      ∧ (InterpolateVelocity_rounded Round s (CreateSpline_rounded Round s) 1).MovementComponent
          = some (c.SetVelocity
              ((s.ServerState.Velocity.mul_rounded Round
                  (VelocityToDerivative_rounded Round s)).div_rounded Round
                (VelocityToDerivative_rounded Round s)))
      ∧ ((∀ x, Round x = x) →
          (InterpolateVelocity_rounded Round s (CreateSpline_rounded Round s)
              0).MovementComponent = some (c.SetVelocity s.StartVelocity)
            ∧ (InterpolateVelocity_rounded Round s (CreateSpline_rounded Round s)
              1).MovementComponent = some (c.SetVelocity s.ServerState.Velocity)) := by
  have h0 : (CreateSpline_rounded Round s).InterpolateLocaton 0
      = s.ClientStartTransform.GetLocation := by
    rw [InterpolateLocaton_zero]; rfl
  have h1 : (CreateSpline_rounded Round s).InterpolateLocaton 1
      = s.ServerState.Transform.GetLocation := by
    rw [InterpolateLocaton_one]; rfl
  have v0 : (InterpolateVelocity_rounded Round s (CreateSpline_rounded Round s)
      0).MovementComponent
      = some (c.SetVelocity
          ((s.StartVelocity.mul_rounded Round
              (VelocityToDerivative_rounded Round s)).div_rounded Round
            (VelocityToDerivative_rounded Round s))) := by
    simp only [InterpolateVelocity_rounded, hc, InterpolateDerivative_zero]
    rfl
  have v1 : (InterpolateVelocity_rounded Round s (CreateSpline_rounded Round s)
      1).MovementComponent
      = some (c.SetVelocity
          ((s.ServerState.Velocity.mul_rounded Round
              (VelocityToDerivative_rounded Round s)).div_rounded Round
            (VelocityToDerivative_rounded Round s))) := by
    simp only [InterpolateVelocity_rounded, hc, InterpolateDerivative_one]
    rfl
  refine ⟨h0, ?_, h1, ?_, v0, v1, ?_⟩
  · simp only [InterpolateLocation, hr, h0]
  · simp only [InterpolateLocation, hr, h1]
  · intro hexact
    have hk : s.ClientTimeBetweenLastUpdates * 100 ≠ 0 :=
      ne_of_gt (VelocityToDerivative_pos s hwindow)
    have hback : ∀ v : FVector,
        (v.mul_rounded Round (VelocityToDerivative_rounded Round s)).div_rounded Round
          (VelocityToDerivative_rounded Round s) = v := by
      intro v
      simp only [FVector.mul_rounded, FVector.div_rounded, VelocityToDerivative_rounded, hexact]
      ext <;> simp <;> field_simp
    rw [v0, v1, hback, hback]
    exact ⟨rfl, rfl⟩

/-- In the window of `ThirtiethState`, with the rounding of binary32, `InterpolateVelocity` at
ratio 0 stores the rounded round trip of the start velocity. -/
theorem CreateSpline_boundary_rounded_witness :
    KINDA_SMALL_NUMBER ≤ ThirtiethState.ClientTimeBetweenLastUpdates
      ∧ (InterpolateVelocity_rounded Binary32Round ThirtiethState
            (CreateSpline_rounded Binary32Round ThirtiethState) 0).MovementComponent
          = some (UGoKartMovementComponent.SetVelocity ⟨⟨0, 0, 0⟩, NeutralMove 0 0⟩
              ((ThirtiethState.StartVelocity.mul_rounded Binary32Round
                  (VelocityToDerivative_rounded Binary32Round ThirtiethState)).div_rounded
                Binary32Round (VelocityToDerivative_rounded Binary32Round ThirtiethState))) :=
  ⟨by norm_num [KINDA_SMALL_NUMBER, ThirtiethState],
    (CreateSpline_boundary_rounded Binary32Round ThirtiethState ⟨⟨0, 0, 0⟩, NeutralMove 0 0⟩
      ⟨⟨0, 0, 0⟩, ⟨0, 0, 0, 1⟩⟩ rfl rfl
      (by norm_num [KINDA_SMALL_NUMBER, ThirtiethState])).2.2.2.2.1⟩

/-- C9 as stated fails in binary32.  The interval is the binary32 value nearest to `1 / 30` and
the start velocity is `(3, 0, 0)`: `VelocityToDerivative()` is `6990507 / 2097152`,
the start derivative built by `CreateSpline` is `(10, 0, 0)` (a tie, rounded to
even), and `InterpolateVelocity` at ratio 0 stores `12582911 / 4194304`, one unit in
the last place below 3, not the start velocity.  The result is the same when
the quotient is taken as a product with the rounded reciprocal. -/
theorem InterpolateVelocity_round_trip_inexact :
    Binary32Round (1 / 30) = ThirtiethState.ClientTimeBetweenLastUpdates
      ∧ KINDA_SMALL_NUMBER ≤ ThirtiethState.ClientTimeBetweenLastUpdates
      ∧ VelocityToDerivative_rounded Binary32Round ThirtiethState = 6990507 / 2097152
      ∧ (CreateSpline_rounded Binary32Round ThirtiethState).StartDerivative = ⟨10, 0, 0⟩
      ∧ (InterpolateVelocity_rounded Binary32Round ThirtiethState
            (CreateSpline_rounded Binary32Round ThirtiethState) 0).MovementComponent
          = some ⟨⟨12582911 / 4194304, 0, 0⟩, NeutralMove 0 0⟩
      ∧ (InterpolateVelocity_rounded Binary32Round ThirtiethState
            (CreateSpline_rounded Binary32Round ThirtiethState) 0).MovementComponent
          ≠ some (UGoKartMovementComponent.SetVelocity ⟨⟨0, 0, 0⟩, NeutralMove 0 0⟩
              ThirtiethState.StartVelocity)
      ∧ Binary32Round (10 * Binary32Round (1 / (6990507 / 2097152))) = 12582911 / 4194304 := by
  have e1 : Binary32Round (1 / 30) = 8947849 / 268435456 := by
    rw [Binary32Round_eq (1 / 30) (-5) 8947849 (by norm_num) (by norm_num) (by norm_num)
      (RoundHalfEven_eq _ _ (by norm_num) (by norm_num))]
    norm_num
  have e2 : Binary32Round (8947849 / 268435456 * 100) = 6990507 / 2097152 := by
    rw [Binary32Round_eq _ 1 13981014 (by norm_num) (by norm_num) (by norm_num)
      (RoundHalfEven_eq _ _ (by norm_num) (by norm_num))]
    norm_num
  have e3 : Binary32Round (3 * (6990507 / 2097152)) = 10 := by
    rw [Binary32Round_eq _ 3 10485760 (by norm_num) (by norm_num) (by norm_num)
      (RoundHalfEven_tie_even _ _ (by norm_num) (by norm_num))]
    norm_num
  have e4 : Binary32Round (10 / (6990507 / 2097152)) = 12582911 / 4194304 := by
    rw [Binary32Round_eq _ 1 12582911 (by norm_num) (by norm_num) (by norm_num)
      (RoundHalfEven_eq _ _ (by norm_num) (by norm_num))]
    norm_num
  have e5 : Binary32Round (1 / (6990507 / 2097152)) = 10066329 / 33554432 := by
    rw [Binary32Round_eq _ (-2) 10066329 (by norm_num) (by norm_num) (by norm_num)
      (RoundHalfEven_eq _ _ (by norm_num) (by norm_num))]
    norm_num
  have e6 : Binary32Round (10 * (10066329 / 33554432)) = 12582911 / 4194304 := by
    rw [Binary32Round_eq _ 1 12582911 (by norm_num) (by norm_num) (by norm_num)
      (RoundHalfEven_eq _ _ (by norm_num) (by norm_num))]
    norm_num
  have hk : VelocityToDerivative_rounded Binary32Round ThirtiethState = 6990507 / 2097152 := by
    simp only [VelocityToDerivative_rounded, ThirtiethState]
    exact e2
  have hd : (CreateSpline_rounded Binary32Round ThirtiethState).StartDerivative
      = ⟨10, 0, 0⟩ := by
    simp only [CreateSpline_rounded, hk, FVector.mul_rounded]
    simp only [ThirtiethState, zero_mul, Binary32Round_zero, e3]
  have hv : (InterpolateVelocity_rounded Binary32Round ThirtiethState
      (CreateSpline_rounded Binary32Round ThirtiethState) 0).MovementComponent
      = some ⟨⟨12582911 / 4194304, 0, 0⟩, NeutralMove 0 0⟩ := by
    simp only [InterpolateVelocity_rounded, InterpolateDerivative_zero, hd, hk,
      FVector.div_rounded, zero_div, Binary32Round_zero, e4]
    rfl
  refine ⟨e1, by norm_num [KINDA_SMALL_NUMBER, ThirtiethState], hk, hd, hv, ?_, ?_⟩
  · rw [hv]
    simp only [UGoKartMovementComponent.SetVelocity, ThirtiethState, ne_eq, Option.some.injEq,
      UGoKartMovementComponent.mk.injEq, FVector.mk.injEq, and_true, true_and]
    norm_num
  · rw [e5, e6]

/-- C10 (velocity-to-derivative scale), as the code has it.  The factor
`VelocityToDerivative()` equals `ClientTimeBetweenLastUpdates * 100`, the interval
times the metre-to-centimetre factor: `CreateSpline` multiplies the start and the
target velocity by it, `InterpolateVelocity` divides the spline's derivative by it,
and it coincides with the interval only when the interval is zero. -/
theorem VelocityToDerivative_scale (s : UGoKartMovementReplicator) :
    VelocityToDerivative s = s.ClientTimeBetweenLastUpdates * 100
      ∧ (CreateSpline s).StartDerivative
          = s.StartVelocity.mul (s.ClientTimeBetweenLastUpdates * 100)
      ∧ (CreateSpline s).TargetDerivative
          = s.ServerState.Velocity.mul (s.ClientTimeBetweenLastUpdates * 100)
      ∧ (∀ (Spline : FHermiteCubicSpline) (LerpRatio : ℚ),
          (InterpolateVelocity s Spline LerpRatio).MovementComponent
            = s.MovementComponent.map (fun c => c.SetVelocity
                ((Spline.InterpolateDerivative LerpRatio).div
                  (s.ClientTimeBetweenLastUpdates * 100))))
      ∧ (VelocityToDerivative s = s.ClientTimeBetweenLastUpdates
          ↔ s.ClientTimeBetweenLastUpdates = 0) := by
  refine ⟨rfl, rfl, rfl, ?_, ?_⟩
  · intro Spline LerpRatio
    cases hc : s.MovementComponent <;> simp [InterpolateVelocity, hc, VelocityToDerivative]
  · unfold VelocityToDerivative
    constructor
    · intro h
      linarith
    · intro h
      rw [h]
      norm_num

/-- C10 as stated fails: with one second between the last two snapshots the factor is 100,
not 1. -/
theorem VelocityToDerivative_ne_interval :
    WindowState.ClientTimeBetweenLastUpdates = 1
      ∧ VelocityToDerivative WindowState = 100
      ∧ VelocityToDerivative WindowState ≠ WindowState.ClientTimeBetweenLastUpdates := by
  refine ⟨rfl, ?_, ?_⟩ <;> norm_num [VelocityToDerivative, WindowState]

/-! ## Early returns of the frame and of the notifications -/

/-- C11 (degenerate interpolation window).  In every `ClientTick` in which
`ClientTimeBetweenLastUpdates` is below `KINDA_SMALL_NUMBER`, interpolation is skipped:
the only change is that `ClientTimeSinceUpdate` advances by `DeltaTime`; the offset
root (rendered location and rotation) and the movement component (velocity) are
as before, and the path taken performs no division. -/
theorem ClientTick_degenerate_window (Slerp : FQuat → FQuat → ℚ → FQuat)
    (s : UGoKartMovementReplicator) (DeltaTime : ℚ)
    (hsmall : s.ClientTimeBetweenLastUpdates < KINDA_SMALL_NUMBER) :
    ClientTick Slerp s DeltaTime
        = { s with ClientTimeSinceUpdate := s.ClientTimeSinceUpdate + DeltaTime }
      ∧ (ClientTick Slerp s DeltaTime).MeshOffsetRoot = s.MeshOffsetRoot
      ∧ (ClientTick Slerp s DeltaTime).MovementComponent = s.MovementComponent
      ∧ (ClientTick Slerp s DeltaTime).ClientTimeSinceUpdate
          = s.ClientTimeSinceUpdate + DeltaTime
      ∧ ClientTick_divisors s DeltaTime = [] := by
  have h : ClientTick Slerp s DeltaTime
      = { s with ClientTimeSinceUpdate := s.ClientTimeSinceUpdate + DeltaTime } := by
    simp [ClientTick, hsmall]
  refine ⟨h, ?_, ?_, ?_, ?_⟩
  · rw [h]
  · rw [h]
  · rw [h]
  · simp [ClientTick_divisors, hsmall]

/-- A frame of one second on a proxy that has not yet seen two snapshots only advances the
elapsed-time counter. -/
theorem ClientTick_degenerate_window_witness :
    RestState.ClientTimeBetweenLastUpdates < KINDA_SMALL_NUMBER
      ∧ ClientTick StepSlerp RestState 1
          = { RestState with ClientTimeSinceUpdate := RestState.ClientTimeSinceUpdate + 1 } :=
  ⟨by norm_num [RestState, KINDA_SMALL_NUMBER],
    (ClientTick_degenerate_window StepSlerp RestState 1
      (by norm_num [RestState, KINDA_SMALL_NUMBER])).1⟩

/-- C12 (missing dependency), as the code has it.  In every replicator state whose movement
component is unresolved, `TickComponent` (and with it `ClientTick`), both
notification handlers and their dispatch, and `Server_SendMove_Implementation` leave
the whole state unchanged, whatever the roles, the frame's duration and the
move. -/
theorem MovementComponent_unresolved_noop (Slerp : FQuat → FQuat → ℚ → FQuat)
    (Simulate : PhysicalState → FGoKartMoves → PhysicalState)
    (OwnerRole RemoteRole : ENetRole) (s : UGoKartMovementReplicator) (DeltaTime : ℚ)
    (Move : FGoKartMoves)
    (hc : s.MovementComponent = none) :
    TickComponent Slerp OwnerRole RemoteRole s DeltaTime = s
      ∧ AutonomousProxy_OnRep_ServerState Simulate s = s
      ∧ SimulatedProxy_OnRep_ServerState s = s
      ∧ OnRep_ServerState Simulate OwnerRole s = s
      ∧ Server_SendMove_Implementation Simulate s Move = s := by
  refine ⟨?_, ?_, ?_, ?_, ?_⟩
  · simp [TickComponent, hc]
  · simp [AutonomousProxy_OnRep_ServerState, hc]
  · simp [SimulatedProxy_OnRep_ServerState, hc]
  · cases OwnerRole <;>
      simp [OnRep_ServerState, AutonomousProxy_OnRep_ServerState,
        SimulatedProxy_OnRep_ServerState, hc]
  · simp [Server_SendMove_Implementation, hc]

/-- A frame, a notification and a received move on a replicator without movement component
change nothing. -/
theorem MovementComponent_unresolved_noop_witness :
    TickComponent StepSlerp ENetRole.ROLE_SimulatedProxy ENetRole.ROLE_Authority
        NoComponentState 1 = NoComponentState
      ∧ AutonomousProxy_OnRep_ServerState CoastSimulate NoComponentState = NoComponentState
      ∧ SimulatedProxy_OnRep_ServerState NoComponentState = NoComponentState
      ∧ OnRep_ServerState CoastSimulate ENetRole.ROLE_SimulatedProxy NoComponentState
          = NoComponentState
      ∧ Server_SendMove_Implementation CoastSimulate NoComponentState (NeutralMove 1 1)
          = NoComponentState :=
  MovementComponent_unresolved_noop StepSlerp CoastSimulate ENetRole.ROLE_SimulatedProxy
    ENetRole.ROLE_Authority NoComponentState 1 (NeutralMove 1 1) rfl

/-- C12 as stated fails: with the movement component resolved and only the offset root missing,
the notification of a simulated proxy still rebuilds the timers (the elapsed time
goes from one half to zero and becomes the interval) and a received move still
advances `ClientSimulatedTime` and `ServerState`. -/
theorem MeshOffsetRoot_unresolved_not_noop :
    NoRootState.MeshOffsetRoot = none
      ∧ NoRootState.ClientTimeSinceUpdate = 1 / 2
      ∧ (SimulatedProxy_OnRep_ServerState NoRootState).ClientTimeSinceUpdate = 0
      ∧ (SimulatedProxy_OnRep_ServerState NoRootState).ClientTimeBetweenLastUpdates = 1 / 2
      ∧ SimulatedProxy_OnRep_ServerState NoRootState ≠ NoRootState
      ∧ NoRootState.ClientSimulatedTime = 0
      ∧ (Server_SendMove_Implementation CoastSimulate NoRootState
            (NeutralMove 1 1)).ClientSimulatedTime = 1
      ∧ Server_SendMove_Implementation CoastSimulate NoRootState (NeutralMove 1 1)
          ≠ NoRootState := by
  have h1 : (SimulatedProxy_OnRep_ServerState NoRootState).ClientTimeSinceUpdate = 0 := by
    simp [SimulatedProxy_OnRep_ServerState, NoRootState, WindowState, RestState]
  have h2 : (Server_SendMove_Implementation CoastSimulate NoRootState
      (NeutralMove 1 1)).ClientSimulatedTime = 1 := by
    norm_num [Server_SendMove_Implementation, UpdateServerState, NoRootState, WindowState,
      RestState, NeutralMove]
  have h3 : NoRootState.ClientTimeSinceUpdate = 1 / 2 := rfl
  have h4 : NoRootState.ClientSimulatedTime = 0 := rfl
  refine ⟨rfl, h3, h1, ?_, ?_, h4, h2, ?_⟩
  · simp [SimulatedProxy_OnRep_ServerState, NoRootState, WindowState, RestState]
  · intro h
    rw [h, h3] at h1
    norm_num at h1
  · intro h
    rw [h, h4] at h2
    norm_num at h2

/-! ## Snapshots that are skipped on the owning client -/

theorem AutonomousProxy_OnRep_ServerState_eq
    (Simulate : PhysicalState → FGoKartMoves → PhysicalState)
    (s : UGoKartMovementReplicator) (c : UGoKartMovementComponent)
    (hc : s.MovementComponent = some c) :
    AutonomousProxy_OnRep_ServerState Simulate s
      = { s with
          ActorTransform :=
            ((s.UnacknowledgedMoves.filter
                (fun m => decide (m.Time > s.ServerState.LastMove.Time))).foldl Simulate
              ⟨s.ServerState.Transform, s.ServerState.Velocity⟩).Transform
          MovementComponent := some
            { c with Velocity :=
                ((s.UnacknowledgedMoves.filter
                    (fun m => decide (m.Time > s.ServerState.LastMove.Time))).foldl Simulate
                  ⟨s.ServerState.Transform, s.ServerState.Velocity⟩).Velocity }
          UnacknowledgedMoves :=
            s.UnacknowledgedMoves.filter
              (fun m => decide (m.Time > s.ServerState.LastMove.Time)) } := by
  simp only [AutonomousProxy_OnRep_ServerState, hc, ClearAcknowledgeMoves,
    ClearAcknowledgeMoves_foldl_loop, AutonomousProxy_replay_eq_foldl, List.nil_append,
    UGoKartMovementComponent.SetVelocity]

theorem filter_later_twice (t₁ t₂ : ℚ) (h : t₁ ≤ t₂) (l : List FGoKartMoves) :
    (l.filter (fun m => decide (m.Time > t₁))).filter (fun m => decide (m.Time > t₂))
      = l.filter (fun m => decide (m.Time > t₂)) := by
  rw [List.filter_filter]
  apply List.filter_congr
  intro m _
  by_cases h2 : m.Time > t₂
  · have h1 : m.Time > t₁ := lt_of_le_of_lt h h2
    simp [h1, h2]
  · simp [h2]

/-- C13 (dropped-broadcast tolerance on the owning client).  For every replicator state and
every two snapshots `S1`, `S2` with `S1.LastMove.Time ≤ S2.LastMove.Time`, receiving `S1`
and then `S2` (no frame in between) gives the same state as receiving `S2`
alone; and with a resolved movement component the resulting log is the log
filtered by `S2`'s last move and the resulting pose and velocity are the fold of
`Simulate` over that log from `S2`'s transform and velocity, which mention neither
`S1` nor the prior pose and velocity. -/
theorem AutonomousProxy_skipped_snapshot
    (Simulate : PhysicalState → FGoKartMoves → PhysicalState)
    (s : UGoKartMovementReplicator) (S1 S2 : FGoKartState)
    (hle : S1.LastMove.Time ≤ S2.LastMove.Time) :
    ReceiveServerState Simulate ENetRole.ROLE_AutonomousProxy
        (ReceiveServerState Simulate ENetRole.ROLE_AutonomousProxy s S1) S2
        = ReceiveServerState Simulate ENetRole.ROLE_AutonomousProxy s S2
      ∧ (s.MovementComponent ≠ none →
          (ReceiveServerState Simulate ENetRole.ROLE_AutonomousProxy s S2).UnacknowledgedMoves
              = s.UnacknowledgedMoves.filter (fun m => decide (m.Time > S2.LastMove.Time))
            ∧ (ReceiveServerState Simulate ENetRole.ROLE_AutonomousProxy s S2).ActorTransform
              = ((s.UnacknowledgedMoves.filter
                    (fun m => decide (m.Time > S2.LastMove.Time))).foldl Simulate
                  ⟨S2.Transform, S2.Velocity⟩).Transform
            ∧ (ReceiveServerState Simulate ENetRole.ROLE_AutonomousProxy
                  s S2).MovementComponent.map UGoKartMovementComponent.GetVelocity
              = some ((s.UnacknowledgedMoves.filter
                    (fun m => decide (m.Time > S2.LastMove.Time))).foldl Simulate
                  ⟨S2.Transform, S2.Velocity⟩).Velocity) := by
  cases hc : s.MovementComponent with
  | none =>
    refine ⟨?_, fun h => absurd rfl h⟩
    simp [ReceiveServerState, OnRep_ServerState, AutonomousProxy_OnRep_ServerState, hc]
  | some c =>
    have e1 : ReceiveServerState Simulate ENetRole.ROLE_AutonomousProxy s S1
        = AutonomousProxy_OnRep_ServerState Simulate { s with ServerState := S1 } := rfl
    have e2 : ∀ t : UGoKartMovementReplicator,
        ReceiveServerState Simulate ENetRole.ROLE_AutonomousProxy t S2
          = AutonomousProxy_OnRep_ServerState Simulate { t with ServerState := S2 } :=
      fun _ => rfl
    have h1 := AutonomousProxy_OnRep_ServerState_eq Simulate { s with ServerState := S1 } c hc
    have h2 := AutonomousProxy_OnRep_ServerState_eq Simulate { s with ServerState := S2 } c hc
    refine ⟨?_, fun _ => ?_⟩
    · rw [e1, e2, e2, h1, h2]
      rw [AutonomousProxy_OnRep_ServerState_eq Simulate _ _ rfl]
      simp only [filter_later_twice _ _ hle]
    · rw [e2, h2]
      simp [UGoKartMovementComponent.GetVelocity]

/-- Receiving the acknowledgement of the move stamped 1 and then that of the move stamped 2
ends in the state reached by receiving the latter alone. -/
theorem AutonomousProxy_skipped_snapshot_witness :
    (AckSnapshot 1).LastMove.Time ≤ (AckSnapshot 2).LastMove.Time
      ∧ ReceiveServerState CoastSimulate ENetRole.ROLE_AutonomousProxy
          (ReceiveServerState CoastSimulate ENetRole.ROLE_AutonomousProxy ReplayState
            (AckSnapshot 1)) (AckSnapshot 2)
        = ReceiveServerState CoastSimulate ENetRole.ROLE_AutonomousProxy ReplayState
            (AckSnapshot 2) :=
  ⟨by decide,
    (AutonomousProxy_skipped_snapshot CoastSimulate ReplayState (AckSnapshot 1) (AckSnapshot 2)
      (by decide)).1⟩

/-! ## The interpolation window of a simulated proxy -/

theorem ClientTick_timers (Slerp : FQuat → FQuat → ℚ → FQuat)
    (s : UGoKartMovementReplicator) (DeltaTime : ℚ) :
    (ClientTick Slerp s DeltaTime).ClientTimeSinceUpdate = s.ClientTimeSinceUpdate + DeltaTime
      ∧ (ClientTick Slerp s DeltaTime).ClientTimeBetweenLastUpdates
          = s.ClientTimeBetweenLastUpdates
      ∧ ((ClientTick Slerp s DeltaTime).MovementComponent = none ↔ s.MovementComponent = none) := by
  unfold ClientTick
  by_cases hsmall : s.ClientTimeBetweenLastUpdates < KINDA_SMALL_NUMBER
  · simp [hsmall]
  · cases hc : s.MovementComponent with
    | none => simp [hsmall, hc]
    | some c =>
      cases hr : s.MeshOffsetRoot <;>
        simp [hsmall, hc, hr, InterpolateLocation, InterpolateVelocity, InterpolateRotation]

theorem ClientTicks_timers (Slerp : FQuat → FQuat → ℚ → FQuat)
    (s : UGoKartMovementReplicator) (DeltaTimes : List ℚ) :
    (ClientTicks Slerp s DeltaTimes).ClientTimeSinceUpdate
        = s.ClientTimeSinceUpdate + DeltaTimes.sum
      ∧ (ClientTicks Slerp s DeltaTimes).ClientTimeBetweenLastUpdates
          = s.ClientTimeBetweenLastUpdates
      ∧ ((ClientTicks Slerp s DeltaTimes).MovementComponent = none
          ↔ s.MovementComponent = none) := by
  induction DeltaTimes generalizing s with
  | nil => simp [ClientTicks]
  | cons d ds ih =>
    have hrun : ClientTicks Slerp s (d :: ds) = ClientTicks Slerp (ClientTick Slerp s d) ds := rfl
    obtain ⟨h1, h2, h3⟩ := ClientTick_timers Slerp s d
    obtain ⟨i1, i2, i3⟩ := ih (ClientTick Slerp s d)
    rw [hrun]
    refine ⟨?_, ?_, ?_⟩
    · rw [i1, h1, List.sum_cons]; ring
    · rw [i2, h2]
    · rw [i3, h3]

theorem SimulatedProxy_OnRep_ServerState_timers (s : UGoKartMovementReplicator)
    (hsome : s.MovementComponent ≠ none) :
    (SimulatedProxy_OnRep_ServerState s).ClientTimeBetweenLastUpdates = s.ClientTimeSinceUpdate
      ∧ (SimulatedProxy_OnRep_ServerState s).ClientTimeSinceUpdate = 0
      ∧ (SimulatedProxy_OnRep_ServerState s).MovementComponent ≠ none := by
  cases hc : s.MovementComponent with
  | none => exact absurd hc hsome
  | some c =>
    cases hr : s.MeshOffsetRoot <;> simp [SimulatedProxy_OnRep_ServerState, hc, hr]

/-- C14 (interpolation window rebuild).  On every `SimulatedProxy_OnRep_ServerState` with the
movement component and the offset root resolved, the new
`ClientTimeBetweenLastUpdates` is the `ClientTimeSinceUpdate` held at the notification,
`ClientTimeSinceUpdate` becomes 0, and the start sample becomes the offset root's
world location and rotation and the component's velocity.  The previous start
sample and interval are discarded: the outcome is the same whatever they were.
And the interval so obtained is the sum of the durations of the `ClientTick`s run
since the previous notification. -/
theorem SimulatedProxy_OnRep_ServerState_rebuilds (Slerp : FQuat → FQuat → ℚ → FQuat)
    (s : UGoKartMovementReplicator) (c : UGoKartMovementComponent) (r : USceneComponent)
    (hc : s.MovementComponent = some c) (hr : s.MeshOffsetRoot = some r) :
    (SimulatedProxy_OnRep_ServerState s).ClientTimeBetweenLastUpdates = s.ClientTimeSinceUpdate
      ∧ (SimulatedProxy_OnRep_ServerState s).ClientTimeSinceUpdate = 0
      ∧ (SimulatedProxy_OnRep_ServerState s).ClientStartTransform.GetLocation = r.WorldLocation
      ∧ (SimulatedProxy_OnRep_ServerState s).ClientStartTransform.GetRotation = r.WorldRotation
      ∧ (SimulatedProxy_OnRep_ServerState s).StartVelocity = c.GetVelocity
      ∧ (∀ (Location : FVector) (Rotation : FQuat) (Velocity : FVector) (Interval : ℚ),
          SimulatedProxy_OnRep_ServerState
              { s with
                ClientStartTransform :=
                  (s.ClientStartTransform.SetLocation Location).SetRotation Rotation
                StartVelocity := Velocity
                ClientTimeBetweenLastUpdates := Interval }
            = SimulatedProxy_OnRep_ServerState s)
      ∧ (∀ DeltaTimes : List ℚ,
          (SimulatedProxy_OnRep_ServerState
              (ClientTicks Slerp (SimulatedProxy_OnRep_ServerState s)
                DeltaTimes)).ClientTimeBetweenLastUpdates
            = DeltaTimes.sum) := by
  refine ⟨?_, ?_, ?_, ?_, ?_, ?_, ?_⟩
  · simp [SimulatedProxy_OnRep_ServerState, hc, hr]
  · simp [SimulatedProxy_OnRep_ServerState, hc, hr]
  · simp [SimulatedProxy_OnRep_ServerState, hc, hr, FTransform.SetLocation,
      FTransform.SetRotation, FTransform.GetLocation]
  · simp [SimulatedProxy_OnRep_ServerState, hc, hr, FTransform.SetLocation,
      FTransform.SetRotation, FTransform.GetRotation]
  · simp [SimulatedProxy_OnRep_ServerState, hc, hr]
  · intro Location Rotation Velocity Interval
    simp [SimulatedProxy_OnRep_ServerState, hc, hr, FTransform.SetLocation,
      FTransform.SetRotation]
  · intro DeltaTimes
    have hsome : s.MovementComponent ≠ none := by simp [hc]
    obtain ⟨_, h0, hsome1⟩ := SimulatedProxy_OnRep_ServerState_timers s hsome
    obtain ⟨t1, _, t3⟩ :=
      ClientTicks_timers Slerp (SimulatedProxy_OnRep_ServerState s) DeltaTimes
    have hsome2 : (ClientTicks Slerp (SimulatedProxy_OnRep_ServerState s)
        DeltaTimes).MovementComponent ≠ none := fun h => hsome1 (t3.mp h)
    rw [(SimulatedProxy_OnRep_ServerState_timers _ hsome2).1, t1, h0, zero_add]

/-- A notification of the proxy of `WindowState` turns the half second elapsed into the new
interval, and after two further frames of a quarter second the next notification
yields their sum. -/
theorem SimulatedProxy_OnRep_ServerState_rebuilds_witness :
    (SimulatedProxy_OnRep_ServerState WindowState).ClientTimeBetweenLastUpdates
        = WindowState.ClientTimeSinceUpdate
      ∧ (SimulatedProxy_OnRep_ServerState
            (ClientTicks StepSlerp (SimulatedProxy_OnRep_ServerState WindowState)
              [1 / 4, 1 / 4])).ClientTimeBetweenLastUpdates
          = ([1 / 4, 1 / 4] : List ℚ).sum :=
  ⟨(SimulatedProxy_OnRep_ServerState_rebuilds StepSlerp WindowState
      ⟨⟨0, 0, 0⟩, NeutralMove 0 0⟩ ⟨⟨0, 0, 0⟩, ⟨0, 0, 0, 1⟩⟩ rfl rfl).1,
    (SimulatedProxy_OnRep_ServerState_rebuilds StepSlerp WindowState
      ⟨⟨0, 0, 0⟩, NeutralMove 0 0⟩ ⟨⟨0, 0, 0⟩, ⟨0, 0, 0, 1⟩⟩ rfl rfl).2.2.2.2.2.2
      [1 / 4, 1 / 4]⟩

/-- C15 (lerp ratio).  After a notification (elapsed time 0) followed by frames of durations
`DeltaTimes`, a `ClientTick` of duration `DeltaTime` in a window whose interval is at
least the epsilon passes to the location, velocity and rotation interpolation
the ratio `(DeltaTimes.sum + DeltaTime) / ClientTimeBetweenLastUpdates`: the elapsed time,
current frame included, over the interval.  The ratio is not clamped: it
exceeds 1 as soon as the elapsed time exceeds the interval. -/
theorem ClientTick_LerpRatio (Slerp : FQuat → FQuat → ℚ → FQuat)
    (s : UGoKartMovementReplicator) (DeltaTimes : List ℚ) (DeltaTime : ℚ)
    (hreset : s.ClientTimeSinceUpdate = 0)
    (hsome : s.MovementComponent ≠ none)
    (hwindow : KINDA_SMALL_NUMBER ≤ s.ClientTimeBetweenLastUpdates) :
    ClientTick Slerp (ClientTicks Slerp s DeltaTimes) DeltaTime
        = InterpolateRotation Slerp
            (InterpolateVelocity
              (InterpolateLocation
                { ClientTicks Slerp s DeltaTimes with
                  ClientTimeSinceUpdate := DeltaTimes.sum + DeltaTime }
                (CreateSpline
                  { ClientTicks Slerp s DeltaTimes with
                    ClientTimeSinceUpdate := DeltaTimes.sum + DeltaTime })
                ((DeltaTimes.sum + DeltaTime) / s.ClientTimeBetweenLastUpdates))
              (CreateSpline
                { ClientTicks Slerp s DeltaTimes with
                  ClientTimeSinceUpdate := DeltaTimes.sum + DeltaTime })
              ((DeltaTimes.sum + DeltaTime) / s.ClientTimeBetweenLastUpdates))
            ((DeltaTimes.sum + DeltaTime) / s.ClientTimeBetweenLastUpdates)
      ∧ (s.ClientTimeBetweenLastUpdates < DeltaTimes.sum + DeltaTime →
          1 < (DeltaTimes.sum + DeltaTime) / s.ClientTimeBetweenLastUpdates) := by
  have hpos : (0 : ℚ) < s.ClientTimeBetweenLastUpdates :=
    lt_of_lt_of_le (by norm_num [KINDA_SMALL_NUMBER]) hwindow
  refine ⟨?_, fun h => (one_lt_div hpos).mpr h⟩
  obtain ⟨e1, e2, e3⟩ := ClientTicks_timers Slerp s DeltaTimes
  rw [hreset, zero_add] at e1
  have hsome2 : (ClientTicks Slerp s DeltaTimes).MovementComponent ≠ none :=
    fun h => hsome (e3.mp h)
  generalize ClientTicks Slerp s DeltaTimes = t at e1 e2 hsome2 ⊢
  have hguard : ¬ s.ClientTimeBetweenLastUpdates < KINDA_SMALL_NUMBER := not_lt.mpr hwindow
  simp only [ClientTick, e1, e2, hguard, hsome2, if_false]

/-- With half a second between the last two snapshots, a quarter second elapsed after two
frames of an eighth gives the ratio one half, and that ratio is what the three
interpolations receive. -/
theorem ClientTick_LerpRatio_witness :
    (([1 / 8] : List ℚ).sum + 1 / 8) / HalfSecondState.ClientTimeBetweenLastUpdates = 1 / 2
      ∧ ClientTick StepSlerp (ClientTicks StepSlerp HalfSecondState [1 / 8]) (1 / 8)
        = InterpolateRotation StepSlerp
            (InterpolateVelocity
              (InterpolateLocation
                { ClientTicks StepSlerp HalfSecondState [1 / 8] with
                  ClientTimeSinceUpdate := ([1 / 8] : List ℚ).sum + 1 / 8 }
                (CreateSpline
                  { ClientTicks StepSlerp HalfSecondState [1 / 8] with
                    ClientTimeSinceUpdate := ([1 / 8] : List ℚ).sum + 1 / 8 })
                ((([1 / 8] : List ℚ).sum + 1 / 8) / HalfSecondState.ClientTimeBetweenLastUpdates))
              (CreateSpline
                { ClientTicks StepSlerp HalfSecondState [1 / 8] with
                  ClientTimeSinceUpdate := ([1 / 8] : List ℚ).sum + 1 / 8 })
              ((([1 / 8] : List ℚ).sum + 1 / 8) / HalfSecondState.ClientTimeBetweenLastUpdates))
            ((([1 / 8] : List ℚ).sum + 1 / 8) / HalfSecondState.ClientTimeBetweenLastUpdates) :=
  ⟨by norm_num [HalfSecondState],
    (ClientTick_LerpRatio StepSlerp HalfSecondState [1 / 8] (1 / 8) rfl (by decide)
      (by norm_num [HalfSecondState, KINDA_SMALL_NUMBER])).1⟩

/-! ## The validator as the code has it, and the time budget -/

/-- C16 (the validator's logic), as the code has it by design.  `Server_SendMove_Validate`
rejects every move for which the client is at or ahead of its time budget
(`ClientSimulatedTime + DeltaTime` is not below the server time) and the move is
invalid, and it accepts every move for which the client is below the server
time and the move is valid. -/
theorem Server_SendMove_Validate_design (IsValid : FGoKartMoves → Bool) (TimeSeconds : ℚ)
    (s : UGoKartMovementReplicator) (Move : FGoKartMoves) :
    (TimeSeconds ≤ s.ClientSimulatedTime + Move.DeltaTime ∧ IsValid Move = false →
        Server_SendMove_Validate IsValid TimeSeconds s Move = false)
      ∧ (s.ClientSimulatedTime + Move.DeltaTime < TimeSeconds ∧ IsValid Move = true →
        Server_SendMove_Validate IsValid TimeSeconds s Move = true) := by
  constructor
  · rintro ⟨hahead, hinvalid⟩
    exact (Server_SendMove_Validate_eq_false_iff IsValid TimeSeconds s Move).mpr
      ⟨not_lt.mpr hahead, hinvalid⟩
  · rintro ⟨_, hvalid⟩
    simp [Server_SendMove_Validate, hvalid]

/-- A move with throttle 2 from a client ten seconds ahead of a server five seconds old is
rejected, and a neutral one-second move from a client that has simulated
nothing yet is accepted. -/
theorem Server_SendMove_Validate_design_witness :
    Server_SendMove_Validate (FGoKartMoves.IsValid 1) 5 AheadState ⟨2, 0, 1, 7⟩ = false
      ∧ Server_SendMove_Validate (FGoKartMoves.IsValid 1) 5 RestState (NeutralMove 1 1)
          = true :=
  ⟨(Server_SendMove_Validate_design (FGoKartMoves.IsValid 1) 5 AheadState ⟨2, 0, 1, 7⟩).1
      ⟨by norm_num [AheadState, RestState], by decide⟩,
    (Server_SendMove_Validate_design (FGoKartMoves.IsValid 1) 5 RestState (NeutralMove 1 1)).2
      ⟨by norm_num [RestState, NeutralMove], by decide⟩⟩

/-- C16 as stated fails.  A move with throttle 2 sent by a client ten seconds ahead of a
server five seconds old is invalid and the client is not below the server time:
the claim places it among the other cases, which it has accepted, and the
validator rejects it. -/
theorem Server_SendMove_Validate_ahead_invalid_rejected :
    ¬ (AheadState.ClientSimulatedTime + (⟨2, 0, 1, 7⟩ : FGoKartMoves).DeltaTime < 5)
      ∧ FGoKartMoves.IsValid 1 ⟨2, 0, 1, 7⟩ = false
      ∧ Server_SendMove_Validate (FGoKartMoves.IsValid 1) 5 AheadState ⟨2, 0, 1, 7⟩ = false := by
  refine ⟨?_, by decide, ?_⟩ <;>
    norm_num [Server_SendMove_Validate, AheadState, RestState, FGoKartMoves.IsValid]

theorem VelocityToDerivative_InterpolateLocation (t : UGoKartMovementReplicator)
    (Spline : FHermiteCubicSpline) (Ratio : ℚ) :
    VelocityToDerivative (InterpolateLocation t Spline Ratio)
      = t.ClientTimeBetweenLastUpdates * 100 := by
  cases hr : t.MeshOffsetRoot <;> simp [VelocityToDerivative, InterpolateLocation, hr]

theorem ClientTick_of_divisors_nil (Slerp : FQuat → FQuat → ℚ → FQuat)
    (s : UGoKartMovementReplicator) (DeltaTime : ℚ)
    (hnil : ClientTick_divisors s DeltaTime = []) :
    ClientTick Slerp s DeltaTime
      = { s with ClientTimeSinceUpdate := s.ClientTimeSinceUpdate + DeltaTime } := by
  unfold ClientTick_divisors at hnil
  by_cases hsmall : s.ClientTimeBetweenLastUpdates < KINDA_SMALL_NUMBER
  · simp [ClientTick, hsmall]
  · cases hc : s.MovementComponent with
    | none => simp [ClientTick, hsmall, hc]
    | some c => simp [hsmall, hc] at hnil

/-- C17 (division in the interpolation path is guarded).  Every divisor of a division that
`ClientTick` performs (the interval for the ratio, `VelocityToDerivative()` inside
`InterpolateVelocity`) is reached only with `ClientTimeBetweenLastUpdates` at least
`KINDA_SMALL_NUMBER`; the interval is then strictly positive and so is the
divisor, which is the interval or a hundred times the interval. -/
theorem ClientTick_divisors_positive (s : UGoKartMovementReplicator) (DeltaTime d : ℚ)
    (hd : d ∈ ClientTick_divisors s DeltaTime) :
    KINDA_SMALL_NUMBER ≤ s.ClientTimeBetweenLastUpdates
      ∧ 0 < s.ClientTimeBetweenLastUpdates
      ∧ 0 < d
      ∧ (d = s.ClientTimeBetweenLastUpdates ∨ d = s.ClientTimeBetweenLastUpdates * 100) := by
  unfold ClientTick_divisors at hd
  by_cases hsmall : s.ClientTimeBetweenLastUpdates < KINDA_SMALL_NUMBER
  · simp [hsmall] at hd
  · have hwindow : KINDA_SMALL_NUMBER ≤ s.ClientTimeBetweenLastUpdates := not_lt.mp hsmall
    have hpos : (0 : ℚ) < s.ClientTimeBetweenLastUpdates :=
      lt_of_lt_of_le (by norm_num [KINDA_SMALL_NUMBER]) hwindow
    cases hc : s.MovementComponent with
    | none => simp [hsmall, hc] at hd
    | some c =>
      simp only [hsmall, hc, if_false, reduceCtorEq, VelocityToDerivative_InterpolateLocation,
        List.mem_cons, List.mem_singleton, List.mem_nil_iff, or_false] at hd
      refine ⟨hwindow, hpos, ?_, hd⟩
      rcases hd with h | h
      · rw [h]; exact hpos
      · rw [h]; exact mul_pos hpos (by norm_num)

/-- In the one-second window of `WindowState` the velocity divisor of a quarter-second frame
is 100 and the guard has let the frame through. -/
theorem ClientTick_divisors_positive_witness :
    (100 : ℚ) ∈ ClientTick_divisors WindowState (1 / 4)
      ∧ KINDA_SMALL_NUMBER ≤ WindowState.ClientTimeBetweenLastUpdates
      ∧ 0 < WindowState.ClientTimeBetweenLastUpdates
      ∧ (0 : ℚ) < 100
      ∧ ((100 : ℚ) = WindowState.ClientTimeBetweenLastUpdates
          ∨ (100 : ℚ) = WindowState.ClientTimeBetweenLastUpdates * 100) :=
  ⟨by
      simp [ClientTick_divisors, WindowState, RestState, KINDA_SMALL_NUMBER,
        VelocityToDerivative, InterpolateLocation]
      norm_num,
    ClientTick_divisors_positive WindowState (1 / 4) 100
      (by
        simp [ClientTick_divisors, WindowState, RestState, KINDA_SMALL_NUMBER,
          VelocityToDerivative, InterpolateLocation]
        norm_num)⟩

theorem Server_SendMove_ClientSimulatedTime
    (Simulate : PhysicalState → FGoKartMoves → PhysicalState) (IsValid : FGoKartMoves → Bool)
    (TimeSeconds : ℚ) (s : UGoKartMovementReplicator) (Move : FGoKartMoves) :
    (Server_SendMove Simulate IsValid TimeSeconds s Move).ClientSimulatedTime
      = s.ClientSimulatedTime
        + (if Server_SendMove_Validate IsValid TimeSeconds s Move = true
              ∧ s.MovementComponent ≠ none then Move.DeltaTime else 0) := by
  by_cases hv : Server_SendMove_Validate IsValid TimeSeconds s Move = true
  · cases hc : s.MovementComponent with
    | none => simp [Server_SendMove, Server_SendMove_Implementation, hv, hc]
    | some c =>
      simp [Server_SendMove, Server_SendMove_Implementation, hv, hc, UpdateServerState]
  · simp [Server_SendMove, hv]

/-- C18 (time-budget accounting).  For every sequence of submitted moves, each processed by
running `Server_SendMove_Implementation` only if `Server_SendMove_Validate` accepts,
`ClientSimulatedTime` at the end is its initial value plus the sum of `DeltaTime` over
exactly the moves that were accepted and applied with a resolved movement
component; a rejected move leaves the whole state, `ClientSimulatedTime` included,
as it was. -/
theorem ClientSimulatedTime_accounting
    (Simulate : PhysicalState → FGoKartMoves → PhysicalState) (IsValid : FGoKartMoves → Bool)
    (s : UGoKartMovementReplicator) (Submitted : List (ℚ × FGoKartMoves)) :
    (ServerReceive Simulate IsValid s Submitted).ClientSimulatedTime
        = s.ClientSimulatedTime
          + ((AppliedMoves Simulate IsValid s Submitted).map FGoKartMoves.DeltaTime).sum
      ∧ (∀ (t : UGoKartMovementReplicator) (TimeSeconds : ℚ) (Move : FGoKartMoves),
          Server_SendMove_Validate IsValid TimeSeconds t Move = false →
            Server_SendMove Simulate IsValid TimeSeconds t Move = t) := by
  constructor
  · induction Submitted generalizing s with
    | nil => simp [ServerReceive, AppliedMoves]
    | cons p rest ih =>
      have hrun : ServerReceive Simulate IsValid s (p :: rest)
          = ServerReceive Simulate IsValid (Server_SendMove Simulate IsValid p.1 s p.2) rest :=
        rfl
      rw [hrun, ih, Server_SendMove_ClientSimulatedTime]
      by_cases h : Server_SendMove_Validate IsValid p.1 s p.2 = true ∧ s.MovementComponent ≠ none
      · rw [AppliedMoves, if_pos h, if_pos h, List.map_cons, List.sum_cons]
        ring
      · rw [AppliedMoves, if_neg h, if_neg h]
        ring
  · intro t TimeSeconds Move hrej
    simp [Server_SendMove, hrej]

/-- The four submissions of `Submissions`: the third is rejected, the other three are applied,
and the simulated time ends at the sum of their durations. -/
theorem ClientSimulatedTime_of_Submissions :
    AppliedMoves CoastSimulate (FGoKartMoves.IsValid 1) RestState Submissions
        = [NeutralMove 1 1, ⟨2, 0, 1, 2⟩, NeutralMove 2 4]
      ∧ (ServerReceive CoastSimulate (FGoKartMoves.IsValid 1) RestState
          Submissions).ClientSimulatedTime = 4 := by
  constructor
  · simp [AppliedMoves, Submissions, Server_SendMove, Server_SendMove_Validate,
      Server_SendMove_Implementation, UpdateServerState, RestState, NeutralMove,
      FGoKartMoves.IsValid]
    norm_num
    simp
  · simp [ServerReceive, Submissions, Server_SendMove, Server_SendMove_Validate,
      Server_SendMove_Implementation, UpdateServerState, RestState, NeutralMove,
      FGoKartMoves.IsValid]
    norm_num

end KrazyKarts
